import Mathlib

set_option maxRecDepth 8000

/-! Formal model of the safety-gated text pipeline of
`apps/server/src/routes/mvp.ts` (symptom triage and prescription
simplification).  JavaScript strings are modeled as `List Char`; each
definition mirrors one function or constant of the source file. -/

/-- Whitespace class of the JavaScript regex `\s` and of `String.prototype.trim`
(the ASCII whitespace characters plus the common Unicode space characters). -/
def isJsWs (c : Char) : Bool :=
  c = ' ' || c = '\t' || c = '\n' || c = '\r' || c = '\x0b' || c = '\x0c' ||
  c = '\u00A0' || c = '\u2028' || c = '\u2029' || c = '\uFEFF'

/-- Core of `value.replace(/\s+/g, " ")`: every maximal run of whitespace
becomes one space.  The flag records whether the previous character was
whitespace (i.e. whether we are inside a run whose space was already emitted). -/
def collapseWsAux : Bool → List Char → List Char
  | _, [] => []
  | prevWs, c :: cs =>
    if isJsWs c then
      if prevWs then collapseWsAux true cs else ' ' :: collapseWsAux true cs
    else c :: collapseWsAux false cs

/-- Model of `value.replace(/\s+/g, " ")`. -/
def collapseWs (l : List Char) : List Char := collapseWsAux false l

/-- Model of `String.prototype.trim`: drop leading and trailing whitespace. -/
def trimWs (l : List Char) : List Char :=
  ((l.dropWhile isJsWs).reverse.dropWhile isJsWs).reverse

/-- Model of `sanitizeTriageText` (mvp.ts line 365):
`value.replace(/\s+/g, " ").trim()`. -/
def sanitizeTriageText (l : List Char) : List Char := trimWs (collapseWs l)

/-- Model of `String.prototype.toLowerCase` on the relevant (ASCII) alphabet,
applied characterwise via Lean's `Char.toLower`. -/
def lowerStr (l : List Char) : List Char := l.map Char.toLower

/-- Model of `INDIA_EMERGENCY_NUMBER` (mvp.ts line 257). -/
def INDIA_EMERGENCY_NUMBER : List Char := "112".toList

/-- Model of `DEFAULT_TRIAGE_DISCLAIMER` (mvp.ts line 260). -/
def DEFAULT_TRIAGE_DISCLAIMER : List Char :=
  ("This triage result is not a diagnosis or treatment plan. Please consult a licensed medical professional immediately.").toList

/-- Model of the `emergencyKeywords` list (mvp.ts lines 323-341). -/
def emergencyKeywords : List (List Char) :=
  [ "chest pain".toList
  , "chest pressure".toList
  , "difficulty breathing".toList
  , "can\x27t breathe".toList
  , "cannot breathe".toList
  , "not breathing".toList
  , "unconscious".toList
  , "loss of consciousness".toList
  , "severe bleeding".toList
  , "stroke".toList
  , "heart attack".toList
  , "seizure".toList
  , "paralysis".toList
  , "severe head injury".toList
  , "suicidal".toList
  , "overdose".toList
  , "anaphylaxis".toList ]

/-- Model of `dosageRequestKeywords` (mvp.ts lines 343-349). -/
def dosageRequestKeywords : List (List Char) :=
  [ "dosage".toList, "dose".toList, "how many mg".toList
  , "how much medicine".toList, "prescribe".toList ]

/-- Model of `diagnosisRequestKeywords` (mvp.ts lines 351-356). -/
def diagnosisRequestKeywords : List (List Char) :=
  [ "diagnose".toList, "diagnosis".toList
  , "what disease do i have".toList, "what illness do i have".toList ]

/-- Model of `safetyBypassKeywords` (mvp.ts lines 358-363). -/
def safetyBypassKeywords : List (List Char) :=
  [ "ignore safety".toList, "ignore your rules".toList
  , "skip safety".toList, "bypass safety".toList ]

/-- Triage urgency levels (`triageLevelSchema`, mvp.ts line 142). -/
inductive TriageLevel where
  | RED | YELLOW | GREEN | BLUE
deriving DecidableEq, Repr

/-- Shape of `symptomCheckResponseSchema` values (mvp.ts lines 144-150). -/
structure SymptomCheckResponse where
  summary : List Char
  triageLevel : TriageLevel
  explanation : List Char
  recommendedAction : List Char
  disclaimer : List Char
deriving DecidableEq, Repr

/-- Model of `createRuleBasedRedResponse` (mvp.ts lines 369-377). -/
def createRuleBasedRedResponse (reason : List Char) : SymptomCheckResponse :=
  { summary := ("Potential emergency warning signs were detected in the reported symptoms.").toList
  , triageLevel := TriageLevel.RED
  , explanation :=
      ("The message includes emergency indicators (").toList ++ reason ++
      (") that can be life-threatening.").toList
  , recommendedAction :=
      ("Call emergency services now (").toList ++ INDIA_EMERGENCY_NUMBER ++
      (") or go to the nearest emergency department immediately.").toList
  , disclaimer := DEFAULT_TRIAGE_DISCLAIMER ++ (" Do not delay emergency care.").toList }

/-- Model of `createRuleBasedSafetyRefusalResponse` (mvp.ts lines 379-389). -/
def createRuleBasedSafetyRefusalResponse : SymptomCheckResponse :=
  { summary := ("The request asks for diagnosis, medication dosage, or unsafe guidance.").toList
  , triageLevel := TriageLevel.YELLOW
  , explanation :=
      ("For safety, this assistant cannot provide diagnosis, dosing, or advice that bypasses medical safeguards.").toList
  , recommendedAction :=
      ("Consult a licensed doctor within 24 hours for personalized guidance. If severe symptoms are present, call emergency services immediately.").toList
  , disclaimer := DEFAULT_TRIAGE_DISCLAIMER }

/-- Input of the rule-based gates: the `{symptoms, additionalContext}` record
passed to `ruleBasedEmergencyCheck` / `ruleBasedSafetyRefusalCheck`. -/
structure GateInput where
  symptoms : List Char
  additionalContext : Option (List Char)
deriving DecidableEq, Repr

/-- Model of `` `${input.symptoms} ${input.additionalContext ?? ""}`.toLowerCase() ``
(mvp.ts lines 395 and 416). -/
def combinedGateText (input : GateInput) : List Char :=
  lowerStr (input.symptoms ++ ' ' :: (input.additionalContext.getD []))

/-- Decidable-substring helper: `needle` occurs somewhere in `hay`
(JavaScript `String.prototype.includes`). -/
def strIncludes (hay needle : List Char) : Bool := decide (needle <:+: hay)

/-- ASCII digit test (JS regex `\d`). -/
def isDigitCh (c : Char) : Bool := '0' ≤ c && c ≤ '9'

/-- Literal, case-sensitive prefix test used by the hand-compiled regex matchers
(all matchers below run on already-lowercased text when the source regex has
the `i` flag on lowercased input). -/
def litPre (pat l : List Char) : Option (List Char) :=
  if pat.isPrefixOf l then some (l.drop pat.length) else none

/-- Step of the oxygen-saturation regex
`/(?:spo2|oxygen(?: level)?|o2)\s*(?:is|:|=|at)?\s*(\d{2,3}(?:\.\d+)?)/i`
(mvp.ts line 401) at one start position: try the leading alternatives in the
regex engine's backtracking order, then match the tail, returning the captured
digit group (integer digits, optional fraction digits). -/
def oxygenTailMatch (l : List Char) : Option (List Char × List Char) :=
  -- `\s*` then optional `(?:is|:|=|at)` then `\s*` then `(\d{2,3}(?:\.\d+)?)`
  let afterWs1 := l.dropWhile isJsWs
  let tryDigits : List Char → Option (List Char × List Char) := fun rest =>
    let afterWs2 := rest.dropWhile isJsWs
    let ds := afterWs2.takeWhile isDigitCh
    if ds.length < 2 then none
    else
      let intPart := ds.take 3
      let rest2 := afterWs2.drop intPart.length
      match rest2 with
      | '.' :: r3 =>
        let fs := r3.takeWhile isDigitCh
        if fs.length = 0 then some (intPart, []) else some (intPart, fs)
      | _ => some (intPart, [])
  match litPre ("is".toList) afterWs1 with
  | some r => (tryDigits r).orElse (fun _ => tryDigits afterWs1)
  | none =>
  match litPre (":".toList) afterWs1 with
  | some r => (tryDigits r).orElse (fun _ => tryDigits afterWs1)
  | none =>
  match litPre ("=".toList) afterWs1 with
  | some r => (tryDigits r).orElse (fun _ => tryDigits afterWs1)
  | none =>
  match litPre ("at".toList) afterWs1 with
  | some r => (tryDigits r).orElse (fun _ => tryDigits afterWs1)
  | none => tryDigits afterWs1

/-- Try the oxygen regex at a single start position. -/
def oxygenTryAt (l : List Char) : Option (List Char × List Char) :=
  match litPre ("spo2".toList) l with
  | some r => oxygenTailMatch r
  | none =>
  match litPre ("oxygen level".toList) l with
  | some r =>
    match oxygenTailMatch r with
    | some m => some m
    | none =>
      match litPre ("oxygen".toList) l with
      | some r2 => oxygenTailMatch r2
      | none => none
  | none =>
  match litPre ("oxygen".toList) l with
  | some r => oxygenTailMatch r
  | none =>
  match litPre ("o2".toList) l with
  | some r => oxygenTailMatch r
  | none => none

/-- Scan for the leftmost match of the oxygen regex (JS `String.match` with a
non-global regex returns the first match). -/
def oxygenFirstMatch : List Char → Option (List Char × List Char)
  | [] => none
  | c :: rest =>
    match oxygenTryAt (c :: rest) with
    | some m => some m
    | none => oxygenFirstMatch rest

/-- Decimal value of a plain digit string, as read by JS `Number` on the
captured group.  `Number("088") = 88`. -/
def parseNatDigits (l : List Char) : Nat :=
  l.foldl (fun a c => 10 * a + (c.toNat - 48)) 0

/-- Truth of `Number(capture) < 90` for a capture `(intDigits, fracDigits)` of
the oxygen regex: since the fractional part is in `[0,1)`, the comparison is
decided exactly by the integer part. -/
def oxygenValueLt90 (m : List Char × List Char) : Bool :=
  parseNatDigits m.1 < 90

/-- Model of `ruleBasedEmergencyCheck` (mvp.ts lines 391-410); returns the
matched reason, or `none` for the source's `null`. -/
def ruleBasedEmergencyCheck (input : GateInput) : Option (List Char) :=
  let combined := combinedGateText input
  match emergencyKeywords.find? (fun keyword => strIncludes combined keyword) with
  | some keyword => some keyword
  | none =>
    match oxygenFirstMatch combined with
    | some m =>
      if oxygenValueLt90 m then some ("oxygen level below 90%").toList else none
    | none => none

/-- Model of `ruleBasedSafetyRefusalCheck` (mvp.ts lines 412-421). -/
def ruleBasedSafetyRefusalCheck (input : GateInput) : Bool :=
  let combined := combinedGateText input
  let asksForDosage := dosageRequestKeywords.any (fun keyword => strIncludes combined keyword)
  let asksForDiagnosis := diagnosisRequestKeywords.any (fun keyword => strIncludes combined keyword)
  let asksToBypassSafety := safetyBypassKeywords.any (fun keyword => strIncludes combined keyword)
  asksForDosage || asksForDiagnosis || asksToBypassSafety

/-- ASCII letter test (JS regex `[A-Za-z]`). -/
def isAsciiLetter (c : Char) : Bool :=
  ('A' ≤ c && c ≤ 'Z') || ('a' ≤ c && c ≤ 'z')

/-- ASCII alphanumeric test (JS regex `[A-Za-z0-9]`). -/
def isAsciiAlnum (c : Char) : Bool := isAsciiLetter c || isDigitCh c

/-- Word character of the JS regex `\b` boundary (`[A-Za-z0-9_]`). -/
def isWordCh (c : Char) : Bool := isAsciiAlnum c || c = '_'

/-- Truth of a `\b` boundary before the current position, given the previous
character (`none` at the start of the string). -/
def boundaryBefore (prev : Option Char) : Bool :=
  match prev with
  | none => true
  | some c => !isWordCh c

/-- Truth of a `\b` boundary after a match ending in a word character, given
the remaining text. -/
def boundaryAfterOk (rest : List Char) : Bool :=
  match rest with
  | [] => true
  | c :: _ => !isWordCh c

/-- Case-insensitive literal prefix match (regex `i` flag): the pattern is
given lowercased; returns the matched original-case slice and the rest. -/
def litPreCI (pat l : List Char) : Option (List Char × List Char) :=
  if pat.length ≤ l.length && lowerStr (l.take pat.length) = pat then
    some (l.take pat.length, l.drop pat.length)
  else none

/-- Leftmost-match scanner that tracks the previous character (needed for `\b`
at the start of a pattern), starting from a given previous character. -/
def scanPrevAux (tryAt : Option Char → List Char → Option α) :
    Option Char → List Char → Option α
  | _, [] => none
  | prev, c :: rest =>
    match tryAt prev (c :: rest) with
    | some m => some m
    | none => scanPrevAux tryAt (some c) rest

/-- Leftmost-match scanner from the start of the string. -/
def scanPrev (tryAt : Option Char → List Char → Option α) (l : List Char) :
    Option α :=
  scanPrevAux tryAt none l

/-- Leftmost-match scanner for patterns without a leading `\b`. -/
def scanPos (tryAt : List Char → Option α) : List Char → Option α
  | [] => none
  | c :: rest =>
    match tryAt (c :: rest) with
    | some m => some m
    | none => scanPos tryAt rest

/-- Match of one `\b`-delimited literal phrase at the current position. -/
def boundedPhraseAt (pat : List Char) (prev : Option Char) (l : List Char) : Bool :=
  boundaryBefore prev &&
    (match litPre pat l with
     | some r => boundaryAfterOk r
     | none => false)

/-- Test of an alternation of `\b`-delimited literal phrases, e.g.
`/\bafter (food|meal|meals)\b/` becomes the phrase set
`["after food", "after meal", "after meals"]` (the two tests coincide:
each alternative expands to one bounded phrase). -/
def hasBoundedPhrase (pats : List (List Char)) (l : List Char) : Bool :=
  (scanPrev
    (fun prev suf => if pats.any (fun p => boundedPhraseAt p prev suf) then some () else none)
    l).isSome

/-- Test of one `\b`-delimited phrase with an explicitly given previous
character (used for the part of a pattern after `.*`). -/
def hasBoundedPhraseWithPrev (pat : List Char) (prev0 : Option Char)
    (l : List Char) : Bool :=
  (scanPrevAux
    (fun prev suf => if boundedPhraseAt pat prev suf then some () else none)
    prev0 l).isSome

/-- Model of the hydration test `/\bdrink\b.*\bwater\b|\bhydrat/` (mvp.ts
line 721): a bounded "drink" followed anywhere later by a bounded "water",
or "hydrat" with a boundary before it. -/
def hydrationTest (l : List Char) : Bool :=
  let drinkThenWater :=
    (scanPrev
      (fun prev suf =>
        if boundedPhraseAt ("drink").toList prev suf then
          if hasBoundedPhraseWithPrev ("water").toList (some 'k') (suf.drop 5) then
            some ()
          else none
        else none)
      l).isSome
  let hydrat :=
    (scanPrev
      (fun prev suf =>
        if boundaryBefore prev && (litPre ("hydrat").toList suf).isSome then some ()
        else none)
      l).isSome
  drinkThenWater || hydrat

/-- Step of the frequency regex (mvp.ts lines 728-730), first alternative
`\b(?:once|twice|thrice)\s+(?:daily|a day|per day)\b`; returns the matched
original-case slice. -/
def freqAlt1 (prev : Option Char) (l : List Char) : Option (List Char) :=
  if !boundaryBefore prev then none else
  [("once").toList, ("twice").toList, ("thrice").toList].findSome? (fun w =>
    match litPreCI w l with
    | some (m1, r1) =>
      let ws := r1.takeWhile isJsWs
      if ws.isEmpty then none else
      let r2 := r1.drop ws.length
      [("daily").toList, ("a day").toList, ("per day").toList].findSome? (fun u =>
        match litPreCI u r2 with
        | some (m2, r3) => if boundaryAfterOk r3 then some (m1 ++ ws ++ m2) else none
        | none => none)
    | none => none)

/-- Second alternative `\b\d+\s*(?:times?|x)\s*(?:a|per)?\s*day\b`, with the
regex engine's backtracking order over `times?`, `x` and the optional
`(?:a|per)`. -/
def freqAlt2 (prev : Option Char) (l : List Char) : Option (List Char) :=
  if !boundaryBefore prev then none else
  let ds := l.takeWhile isDigitCh
  if ds.isEmpty then none else
  let r1 := l.drop ds.length
  let ws1 := r1.takeWhile isJsWs
  let r2 := r1.drop ws1.length
  [("times").toList, ("time").toList, ("x").toList].findSome? (fun t =>
    match litPreCI t r2 with
    | some (mt, r3) =>
      let ws2 := r3.takeWhile isJsWs
      let r4 := r3.drop ws2.length
      let viaOpt :=
        [("a").toList, ("per").toList].findSome? (fun p =>
          match litPreCI p r4 with
          | some (mp, r5) =>
            let ws3 := r5.takeWhile isJsWs
            let r6 := r5.drop ws3.length
            match litPreCI ("day").toList r6 with
            | some (md, r7) =>
              if boundaryAfterOk r7 then some (ds ++ ws1 ++ mt ++ ws2 ++ mp ++ ws3 ++ md)
              else none
            | none => none
          | none => none)
      match viaOpt with
      | some m => some m
      | none =>
        match litPreCI ("day").toList r4 with
        | some (md, r7) =>
          if boundaryAfterOk r7 then some (ds ++ ws1 ++ mt ++ ws2 ++ md) else none
        | none => none
    | none => none)

/-- Third alternative `\b(?:od|bd|bid|tid)\b`. -/
def freqAlt3 (prev : Option Char) (l : List Char) : Option (List Char) :=
  if !boundaryBefore prev then none else
  [("od").toList, ("bd").toList, ("bid").toList, ("tid").toList].findSome? (fun w =>
    match litPreCI w l with
    | some (m, r) => if boundaryAfterOk r then some m else none
    | none => none)

/-- Leftmost match of `frequencyMatch` (mvp.ts lines 728-730) on the
original-case text. -/
def freqFirstMatch (l : List Char) : Option (List Char) :=
  scanPrev (fun prev suf =>
    match freqAlt1 prev suf with
    | some m => some m
    | none =>
      match freqAlt2 prev suf with
      | some m => some m
      | none => freqAlt3 prev suf) l

/-- Leftmost match of `qtyMatch` `/\bqty(?:uantity)?\s*:?\s*(\d+)\b/i`
(mvp.ts line 732); returns the captured digit group. -/
def qtyFirstMatch (l : List Char) : Option (List Char) :=
  scanPrev (fun prev suf =>
    if !boundaryBefore prev then none else
    [("qtyuantity").toList, ("qty").toList].findSome? (fun w =>
      match litPreCI w suf with
      | some (_, r1) =>
        let a := r1.dropWhile isJsWs
        let b := match a with
          | ':' :: t => t.dropWhile isJsWs
          | _ => a
        let ds := b.takeWhile isDigitCh
        if ds.isEmpty then none
        else if boundaryAfterOk (b.drop ds.length) then some ds else none
      | none => none)) l

/-- Leftmost match of `conditionMatch` `/\bif\s+[^.]+/i` (mvp.ts line 734);
returns the matched slice (`[^.]+` can fall back to the last whitespace
character when nothing else follows). -/
def condFirstMatch (l : List Char) : Option (List Char) :=
  scanPrev (fun prev suf =>
    if !boundaryBefore prev then none else
    match litPreCI ("if").toList suf with
    | some (m1, r1) =>
      let ws := r1.takeWhile isJsWs
      if ws.isEmpty then none else
      let r2 := r1.drop ws.length
      let chars := r2.takeWhile (fun c => c ≠ '.')
      if !chars.isEmpty then some (m1 ++ ws ++ chars)
      else if 2 ≤ ws.length then some (m1 ++ ws)
      else none
    | none => none) l

/-- Leftmost match of `explicitInstructionMatch`
`/\binstructions?\s*:\s*([^.;]+)/i` (mvp.ts line 736); returns capture group 1. -/
def explicitInstrFirstMatch (l : List Char) : Option (List Char) :=
  scanPrev (fun prev suf =>
    if !boundaryBefore prev then none else
    [("instructions").toList, ("instruction").toList].findSome? (fun w =>
      match litPreCI w suf with
      | some (_, r1) =>
        match r1.dropWhile isJsWs with
        | ':' :: r2 =>
          let ws2 := r2.takeWhile isJsWs
          let r3 := r2.drop ws2.length
          let chars := r3.takeWhile (fun c => c ≠ '.' && c ≠ ';')
          if !chars.isEmpty then some chars
          else if 1 ≤ ws2.length then some (ws2.drop (ws2.length - 1))
          else none
        | _ => none
      | none => none)) l

/-- Leftmost match of `tabletCountMatch`
`/\b\d+\s*(?:tablet|tab|capsule|cap|ml|drop|drops)\b/i` (mvp.ts line 738);
returns the matched original-case slice. -/
def tabletCountFirstMatch (l : List Char) : Option (List Char) :=
  scanPrev (fun prev suf =>
    if !boundaryBefore prev then none else
    let ds := suf.takeWhile isDigitCh
    if ds.isEmpty then none else
    let r1 := suf.drop ds.length
    let ws := r1.takeWhile isJsWs
    let r2 := r1.drop ws.length
    [("tablet").toList, ("tab").toList, ("capsule").toList, ("cap").toList,
     ("ml").toList, ("drop").toList, ("drops").toList].findSome? (fun u =>
      match litPreCI u r2 with
      | some (mu, r3) => if boundaryAfterOk r3 then some (ds ++ ws ++ mu) else none
      | none => none)) l

/-- Leftmost match of the duration regex
`/\bfor\s+(\d+\s*(?:day|days|week|weeks|month|months))\b/i` (mvp.ts line 711)
on the lowercased text; returns capture group 1. -/
def durationFirstMatch (l : List Char) : Option (List Char) :=
  scanPrev (fun prev suf =>
    if !boundaryBefore prev then none else
    match litPre ("for").toList suf with
    | some r1 =>
      let ws := r1.takeWhile isJsWs
      if ws.isEmpty then none else
      let r2 := r1.drop ws.length
      let ds := r2.takeWhile isDigitCh
      if ds.isEmpty then none else
      let r3 := r2.drop ds.length
      let ws2 := r3.takeWhile isJsWs
      let r4 := r3.drop ws2.length
      [("day").toList, ("days").toList, ("week").toList, ("weeks").toList,
       ("month").toList, ("months").toList].findSome? (fun u =>
        match litPre u r4 with
        | some r5 => if boundaryAfterOk r5 then some (ds ++ ws2 ++ u) else none
        | none => none)
    | none => none) l

/-- Timing slots (`prescriptionTimingSlotSchema`, mvp.ts lines 153-163). -/
inductive PrescriptionTimingSlot where
  | MORNING_BEFORE_FOOD | MORNING_AFTER_FOOD
  | AFTERNOON_BEFORE_FOOD | AFTERNOON_AFTER_FOOD
  | NIGHT_BEFORE_FOOD | NIGHT_AFTER_FOOD
  | BEDTIME | AS_NEEDED | UNSPECIFIED
deriving DecidableEq, Repr

/-- Day parts used by `buildPrescriptionTimingSlot` (mvp.ts line 644). -/
inductive DayPart where
  | MORNING | AFTERNOON | NIGHT
deriving DecidableEq, Repr

/-- Meal relation used by `extractTimingSlotsFromText` (mvp.ts line 645). -/
inductive MealRelation where
  | BEFORE_FOOD | AFTER_FOOD | NONE
deriving DecidableEq, Repr

/-- Model of `buildPrescriptionTimingSlot` (mvp.ts lines 643-660). -/
def buildPrescriptionTimingSlot (part : DayPart) (meal : MealRelation) :
    PrescriptionTimingSlot :=
  match part with
  | DayPart.MORNING =>
    match meal with
    | MealRelation.BEFORE_FOOD => PrescriptionTimingSlot.MORNING_BEFORE_FOOD
    | MealRelation.AFTER_FOOD => PrescriptionTimingSlot.MORNING_AFTER_FOOD
    | MealRelation.NONE => PrescriptionTimingSlot.MORNING_AFTER_FOOD
  | DayPart.AFTERNOON =>
    match meal with
    | MealRelation.BEFORE_FOOD => PrescriptionTimingSlot.AFTERNOON_BEFORE_FOOD
    | MealRelation.AFTER_FOOD => PrescriptionTimingSlot.AFTERNOON_AFTER_FOOD
    | MealRelation.NONE => PrescriptionTimingSlot.AFTERNOON_AFTER_FOOD
  | DayPart.NIGHT =>
    match meal with
    | MealRelation.BEFORE_FOOD => PrescriptionTimingSlot.NIGHT_BEFORE_FOOD
    | MealRelation.AFTER_FOOD => PrescriptionTimingSlot.NIGHT_AFTER_FOOD
    | MealRelation.NONE => PrescriptionTimingSlot.NIGHT_AFTER_FOOD

/-- JS `Array.from(new Set(l))`: deduplicate keeping first occurrences. -/
def dedupFirstAux [DecidableEq α] (seen : List α) : List α → List α
  | [] => []
  | a :: l =>
    if a ∈ seen then dedupFirstAux seen l else a :: dedupFirstAux (a :: seen) l

/-- Deduplication in first-occurrence order. -/
def dedupFirst [DecidableEq α] (l : List α) : List α := dedupFirstAux [] l

/-- Model of `extractTimingSlotsFromText` (mvp.ts lines 662-697). -/
def extractTimingSlotsFromText (text : List Char) : List PrescriptionTimingSlot :=
  let normalized := lowerStr text
  if hasBoundedPhrase [("as needed").toList, ("when needed").toList, ("sos").toList]
      normalized then
    [PrescriptionTimingSlot.AS_NEEDED]
  else
    let meal : MealRelation :=
      if hasBoundedPhrase
          [("after food").toList, ("after meal").toList, ("after meals").toList,
           ("post meal").toList] normalized then
        MealRelation.AFTER_FOOD
      else if hasBoundedPhrase
          [("before food").toList, ("before meal").toList, ("before meals").toList,
           ("empty stomach").toList] normalized then
        MealRelation.BEFORE_FOOD
      else MealRelation.NONE
    let parts : List DayPart :=
      (if hasBoundedPhrase [("morning").toList] normalized then [DayPart.MORNING] else []) ++
      (if hasBoundedPhrase [("afternoon").toList, ("noon").toList] normalized then
        [DayPart.AFTERNOON] else []) ++
      (if hasBoundedPhrase [("night").toList, ("evening").toList] normalized then
        [DayPart.NIGHT] else [])
    let parts :=
      if parts.isEmpty then
        if hasBoundedPhrase
            [("thrice daily").toList, ("three times daily").toList,
             ("three times a day").toList, ("tid").toList] normalized then
          [DayPart.MORNING, DayPart.AFTERNOON, DayPart.NIGHT]
        else if hasBoundedPhrase
            [("twice daily").toList, ("two times daily").toList,
             ("two times a day").toList, ("bid").toList] normalized then
          [DayPart.MORNING, DayPart.NIGHT]
        else if hasBoundedPhrase
            [("once daily").toList, ("once a day").toList, ("od").toList] normalized then
          [DayPart.MORNING]
        else []
      else parts
    let slots := parts.map (fun part => buildPrescriptionTimingSlot part meal)
    let slots :=
      slots ++
        (if hasBoundedPhrase [("before bed").toList, ("bedtime").toList] normalized then
          [PrescriptionTimingSlot.BEDTIME] else [])
    if slots.isEmpty then [PrescriptionTimingSlot.UNSPECIFIED] else dedupFirst slots

/-- First word of the medicine-name group `[A-Za-z][A-Za-z0-9-]*`. -/
def takeNameWord (l : List Char) : Option (List Char × List Char) :=
  match l with
  | [] => none
  | c :: rest =>
    if isAsciiLetter c then
      let w := rest.takeWhile (fun d => isAsciiAlnum d || d = '-')
      some (c :: w, rest.drop w.length)
    else none

/-- Backtracking alternatives for the `(?:\s+[A-Za-z][A-Za-z0-9-]*){0,3}`
extension of the medicine-name group, most-words-first (the regex engine's
greedy order).  Each state is (name captured so far, remaining text). -/
def medNameAlts : Nat → (List Char × List Char) → List (List Char × List Char)
  | 0, st => [st]
  | k+1, (name, rest) =>
    let ws := rest.takeWhile isJsWs
    if ws.isEmpty then [(name, rest)]
    else
      match takeNameWord (rest.drop ws.length) with
      | some (w, r2) => medNameAlts k (name ++ ws ++ w, r2) ++ [(name, rest)]
      | none => [(name, rest)]

/-- Dose-unit alternation `(?:mg|ml|mcg|g)` in source order, case-insensitive;
returns the matched original-case slice. -/
def doseUnitAt (l : List Char) : Option (List Char) :=
  [("mg").toList, ("ml").toList, ("mcg").toList, ("g").toList].findSome? (fun u =>
    (litPreCI u l).map (fun p => p.1))

/-- Tail `\s+(\d+\s?(?:mg|ml|mcg|g))` of the medicine regex (mvp.ts line 705);
returns capture group 2. -/
def doseTailMatch (l : List Char) : Option (List Char) :=
  let ws := l.takeWhile isJsWs
  if ws.isEmpty then none else
  let r := l.drop ws.length
  let ds := r.takeWhile isDigitCh
  if ds.isEmpty then none else
  let r2 := r.drop ds.length
  match r2 with
  | [] => none
  | c :: r3 =>
    if isJsWs c then
      -- `\s?` took one character; if the unit fails here it also fails
      -- without it (a unit never starts with whitespace)
      (doseUnitAt r3).map (fun u => ds ++ c :: u)
    else
      (doseUnitAt r2).map (fun u => ds ++ u)

/-- One start position of the medicine regex
`/(?:take|tab(?:let)?|capsule|cap|syrup)?\s*([A-Za-z][A-Za-z0-9-]*(?:\s+[A-Za-z][A-Za-z0-9-]*){0,3})\s+(\d+\s?(?:mg|ml|mcg|g))/i`
(mvp.ts lines 704-705): alternatives of the optional leading keyword in the
engine's order, each followed by the name group and the dose tail. -/
def medTryAt (l : List Char) : Option (List Char × List Char) :=
  let tryFrom : List Char → Option (List Char × List Char) := fun r =>
    let r1 := r.dropWhile isJsWs
    match takeNameWord r1 with
    | none => none
    | some st0 =>
      (medNameAlts 3 st0).findSome? (fun st =>
        (doseTailMatch st.2).map (fun g2 => (st.1, g2)))
  match
    [("take").toList, ("tablet").toList, ("tab").toList, ("capsule").toList,
     ("cap").toList, ("syrup").toList].findSome? (fun kw =>
      match litPreCI kw l with
      | some (_, r) => tryFrom r
      | none => none)
  with
  | some m => some m
  | none => tryFrom l

/-- Leftmost match of `medicineMatch` on the sanitized original-case text;
returns (capture group 1, capture group 2). -/
def medFirstMatch (l : List Char) : Option (List Char × List Char) :=
  scanPos medTryAt l

/-- Model of `.replace(/^(take|tab(?:let)?|capsule|cap|syrup)\s+/i, "")`
(mvp.ts line 708): strip one leading keyword plus following whitespace. -/
def stripLeadMedKeyword (l : List Char) : List Char :=
  match
    [("take").toList, ("tablet").toList, ("tab").toList, ("capsule").toList,
     ("cap").toList, ("syrup").toList].findSome? (fun kw =>
      match litPreCI kw l with
      | some (_, r) =>
        match r with
        | c :: _ => if isJsWs c then some (r.dropWhile isJsWs) else none
        | [] => none
      | none => none)
  with
  | some rest => rest
  | none => l

/-- Language codes (`prescriptionLanguageSchema`, mvp.ts line 152). -/
inductive PrescriptionLanguageCode where
  | en | hi | ta | bn
deriving DecidableEq, Repr

/-- Model of `prescriptionLanguageLabels` (mvp.ts lines 263-268). -/
def prescriptionLanguageLabels : PrescriptionLanguageCode → List Char
  | PrescriptionLanguageCode.en => ("English").toList
  | PrescriptionLanguageCode.hi => ("Hindi").toList
  | PrescriptionLanguageCode.ta => ("Tamil").toList
  | PrescriptionLanguageCode.bn => ("Bengali").toList

/-- Shape of one entry of `prescriptionFallbackByLanguage` (mvp.ts lines 447-461). -/
structure PrescriptionFallbackText where
  defaultMedicine : List Char
  defaultDosage : List Char
  defaultDuration : List Char
  useDirective : List Char → List Char → List Char
  followSchedule : List Char → List Char
  takeAfterFood : List Char
  takeBeforeFood : List Char
  warningEmptyStomach : List Char
  warningGeneric : List Char
  hydrationTip : List Char
  generalAdvice : List Char

/-- Model of `prescriptionFallbackByLanguage` (mvp.ts lines 447-515). -/
def prescriptionFallbackByLanguage :
    PrescriptionLanguageCode → PrescriptionFallbackText
  | PrescriptionLanguageCode.en =>
    { defaultMedicine := ("Medicine").toList
    , defaultDosage := ("As prescribed").toList
    , defaultDuration := ("As advised").toList
    , useDirective := fun medicineName dosage =>
        ("Use ").toList ++ medicineName ++ ' ' :: dosage ++
        (" as directed by your doctor.").toList
    , followSchedule := fun duration =>
        ("Follow the schedule for ").toList ++ duration ++ (".").toList
    , takeAfterFood := ("Take after food.").toList
    , takeBeforeFood := ("Take before food.").toList
    , warningEmptyStomach := ("Do not take on an empty stomach.").toList
    , warningGeneric := ("Follow warning instructions carefully.").toList
    , hydrationTip := ("Drink more water.").toList
    , generalAdvice :=
        ("Consult a licensed doctor if symptoms worsen or if side effects appear.").toList }
  | PrescriptionLanguageCode.hi =>
    { defaultMedicine := ("दवा").toList
    , defaultDosage := ("डॉक्टर के अनुसार").toList
    , defaultDuration := ("डॉक्टर की सलाह तक").toList
    , useDirective := fun medicineName dosage =>
        medicineName ++ ' ' :: dosage ++ (" डॉक्टर के निर्देशानुसार लें।").toList
    , followSchedule := fun duration =>
        duration ++ (" तक दवा समय पर लें।").toList
    , takeAfterFood := ("खाना खाने के बाद लें।").toList
    , takeBeforeFood := ("खाना खाने से पहले लें।").toList
    , warningEmptyStomach := ("खाली पेट दवा न लें।").toList
    , warningGeneric := ("सावधानी संबंधी निर्देश ध्यान से मानें।").toList
    , hydrationTip := ("पर्याप्त पानी पिएं।").toList
    , generalAdvice := ("लक्षण बढ़ें या दुष्प्रभाव हों तो तुरंत डॉक्टर से संपर्क करें।").toList }
  | PrescriptionLanguageCode.ta =>
    { defaultMedicine := ("மருந்து").toList
    , defaultDosage := ("மருத்துவர் கூறியபடி").toList
    , defaultDuration := ("மருத்துவர் கூறும் வரை").toList
    , useDirective := fun medicineName dosage =>
        medicineName ++ ' ' :: dosage ++ (" மருத்துவர் கூறியபடி எடுத்துக்கொள்ளவும்.").toList
    , followSchedule := fun duration =>
        duration ++ (" வரை மருந்தை நேரத்திற்கு எடுத்துக்கொள்ளவும்.").toList
    , takeAfterFood := ("உணவுக்குப் பிறகு எடுத்துக்கொள்ளவும்.").toList
    , takeBeforeFood := ("உணவுக்கு முன் எடுத்துக்கொள்ளவும்.").toList
    , warningEmptyStomach := ("வயிறு காலியாக இருக்கும்போது எடுத்துக்கொள்ள வேண்டாம்.").toList
    , warningGeneric := ("எச்சரிக்கை வழிமுறைகளை கவனமாக பின்பற்றவும்.").toList
    , hydrationTip := ("அதிகமாக தண்ணீர் குடிக்கவும்.").toList
    , generalAdvice :=
        ("அறிகுறிகள் மோசமடைந்தால் அல்லது பக்கவிளைவுகள் இருந்தால் மருத்துவரை அணுகவும்.").toList }
  | PrescriptionLanguageCode.bn =>
    { defaultMedicine := ("ওষুধ").toList
    , defaultDosage := ("ডাক্তারের নির্দেশ অনুযায়ী").toList
    , defaultDuration := ("ডাক্তারের পরামর্শ অনুযায়ী").toList
    , useDirective := fun medicineName dosage =>
        medicineName ++ ' ' :: dosage ++ (" ডাক্তারের নির্দেশ অনুযায়ী সেবন করুন।").toList
    , followSchedule := fun duration =>
        duration ++ (" পর্যন্ত সময়মতো ওষুধ নিন।").toList
    , takeAfterFood := ("খাওয়ার পরে সেবন করুন।").toList
    , takeBeforeFood := ("খাওয়ার আগে সেবন করুন।").toList
    , warningEmptyStomach := ("খালি পেটে ওষুধ খাবেন না।").toList
    , warningGeneric := ("সতর্কতার নির্দেশগুলি মেনে চলুন।").toList
    , hydrationTip := ("পর্যাপ্ত পানি পান করুন।").toList
    , generalAdvice :=
        ("লক্ষণ বাড়লে বা পার্শ্বপ্রতিক্রিয়া হলে দ্রুত ডাক্তারের সঙ্গে যোগাযোগ করুন।").toList }

/-- Shape of `prescriptionSimplifiedMedicineSchema` values (mvp.ts lines 187-193). -/
structure SimplifiedMedicine where
  medicineName : List Char
  dosage : List Char
  duration : List Char
  timingSlots : List PrescriptionTimingSlot
  instructions : List (List Char)
deriving DecidableEq, Repr

/-- Shape of `prescriptionSimplifyResponseSchema` values (mvp.ts lines 195-203). -/
structure SimplifiedPrescriptionSummary where
  languageCode : PrescriptionLanguageCode
  languageLabel : List Char
  doctorExplanation : List Char
  medicines : List SimplifiedMedicine
  warnings : List (List Char)
  hydrationTips : List (List Char)
  generalAdvice : List (List Char)
deriving DecidableEq, Repr

/-- Input of the simplifier (`prescriptionSimplifySchema`, mvp.ts lines 165-168,
after parsing: `language` defaults to `en`). -/
structure PrescriptionSimplifyInput where
  text : List Char
  language : PrescriptionLanguageCode
deriving DecidableEq, Repr

/-- Validity of a simplify request (mvp.ts line 166: text 10..6000 chars). -/
def validSimplifyRequest (input : PrescriptionSimplifyInput) : Bool :=
  10 ≤ input.text.length && input.text.length ≤ 6000

/-- JS `array.join(" ")`. -/
def joinSpace : List (List Char) → List Char
  | [] => []
  | [x] => x
  | x :: y :: rest => x ++ ' ' :: joinSpace (y :: rest)

/-- Model of `fallbackPrescriptionSummary` (mvp.ts lines 699-765). -/
def fallbackPrescriptionSummary (input : PrescriptionSimplifyInput) :
    SimplifiedPrescriptionSummary :=
  let text := sanitizeTriageText input.text
  let lower := lowerStr text
  let fallbackText := prescriptionFallbackByLanguage input.language
  let medicineMatch := medFirstMatch text
  let medicineName :=
    match medicineMatch with
    | some m =>
      let stripped := trimWs (stripLeadMedKeyword m.1)
      if stripped.isEmpty then fallbackText.defaultMedicine else stripped
    | none => fallbackText.defaultMedicine
  let dosage :=
    match medicineMatch with
    | some m =>
      let d := trimWs (collapseWs m.2)
      if d.isEmpty then fallbackText.defaultDosage else d
    | none => fallbackText.defaultDosage
  let duration :=
    match durationFirstMatch lower with
    | some d => if d.isEmpty then fallbackText.defaultDuration else d
    | none => fallbackText.defaultDuration
  let warnings :=
    if hasBoundedPhrase [("empty stomach").toList, ("avoid empty stomach").toList] lower
    then [fallbackText.warningEmptyStomach]
    else if hasBoundedPhrase
        [("do not").toList, ("don\x27t").toList, ("avoid").toList] lower
    then [fallbackText.warningGeneric]
    else []
  let hydrationTips := if hydrationTest lower then [fallbackText.hydrationTip] else []
  let instructions :=
    (if hasBoundedPhrase
        [("after food").toList, ("after meal").toList, ("after meals").toList] lower
     then [fallbackText.takeAfterFood] else []) ++
    (if hasBoundedPhrase
        [("before food").toList, ("before meal").toList, ("before meals").toList] lower
     then [fallbackText.takeBeforeFood] else []) ++
    (match freqFirstMatch text with
     | some m => [trimWs m]
     | none => []) ++
    (match qtyFirstMatch text with
     | some digits => [("Qty ").toList ++ digits]
     | none => []) ++
    (match condFirstMatch text with
     | some m => [trimWs m]
     | none => []) ++
    (match explicitInstrFirstMatch text with
     | some g => [trimWs g]
     | none => []) ++
    (match tabletCountFirstMatch text with
     | some m => [trimWs m]
     | none => [])
  let dedupedInstructions :=
    dedupFirst ((instructions.map trimWs).filter (fun v => !v.isEmpty))
  let languageLabel := prescriptionLanguageLabels input.language
  let explanationSegments :=
    ([ fallbackText.useDirective medicineName dosage
     , fallbackText.followSchedule duration
     , dedupedInstructions.head?.getD [] ]).filter (fun v => !v.isEmpty)
  { languageCode := input.language
  , languageLabel := languageLabel
  , doctorExplanation := joinSpace explanationSegments
  , medicines :=
      [ { medicineName := medicineName
        , dosage := dosage
        , duration := duration
        , timingSlots := extractTimingSlotsFromText lower
        , instructions := dedupedInstructions } ]
  , warnings := warnings
  , hydrationTips := hydrationTips
  , generalAdvice := [fallbackText.generalAdvice] }

/-- JSON values, as produced by `JSON.parse` (object keys are unique). -/
inductive Json where
  | null
  | bool (b : Bool)
  | num (n : Int)
  | str (s : List Char)
  | arr (elems : List Json)
  | obj (fields : List (List Char × Json))

/-- Key lookup in a parsed JSON object. -/
def jLookup (fields : List (List Char × Json)) (key : List Char) : Option Json :=
  (fields.find? (fun p => p.1 = key)).map (fun p => p.2)

/-- String with zod length bounds `.min(lo).max(hi)` (zod counts UTF-16 units;
every string this code handles is in the basic plane, where the two counts
coincide with the codepoint count used here). -/
def jStrBounded (lo hi : Nat) (j : Json) : Option (List Char) :=
  match j with
  | Json.str s => if lo ≤ s.length && s.length ≤ hi then some s else none
  | _ => none

/-- Array of bounded strings with a maximum item count (`z.array(z.string()...)`). -/
def jStrArray (maxItems itemLo itemHi : Nat) (j : Json) : Option (List (List Char)) :=
  match j with
  | Json.arr xs =>
    match xs.mapM (jStrBounded itemLo itemHi) with
    | some ss => if ss.length ≤ maxItems then some ss else none
    | none => none
  | _ => none

/-- Model of `triageLevelSchema` on a JSON string. -/
def triageLevelOfString (s : List Char) : Option TriageLevel :=
  if s = ("RED").toList then some TriageLevel.RED
  else if s = ("YELLOW").toList then some TriageLevel.YELLOW
  else if s = ("GREEN").toList then some TriageLevel.GREEN
  else if s = ("BLUE").toList then some TriageLevel.BLUE
  else none

/-- Model of `prescriptionLanguageSchema` on a JSON string. -/
def languageCodeOfString (s : List Char) : Option PrescriptionLanguageCode :=
  if s = ("en").toList then some PrescriptionLanguageCode.en
  else if s = ("hi").toList then some PrescriptionLanguageCode.hi
  else if s = ("ta").toList then some PrescriptionLanguageCode.ta
  else if s = ("bn").toList then some PrescriptionLanguageCode.bn
  else none

/-- Model of `prescriptionTimingSlotSchema` on a JSON string. -/
def timingSlotOfString (s : List Char) : Option PrescriptionTimingSlot :=
  if s = ("MORNING_BEFORE_FOOD").toList then some PrescriptionTimingSlot.MORNING_BEFORE_FOOD
  else if s = ("MORNING_AFTER_FOOD").toList then some PrescriptionTimingSlot.MORNING_AFTER_FOOD
  else if s = ("AFTERNOON_BEFORE_FOOD").toList then some PrescriptionTimingSlot.AFTERNOON_BEFORE_FOOD
  else if s = ("AFTERNOON_AFTER_FOOD").toList then some PrescriptionTimingSlot.AFTERNOON_AFTER_FOOD
  else if s = ("NIGHT_BEFORE_FOOD").toList then some PrescriptionTimingSlot.NIGHT_BEFORE_FOOD
  else if s = ("NIGHT_AFTER_FOOD").toList then some PrescriptionTimingSlot.NIGHT_AFTER_FOOD
  else if s = ("BEDTIME").toList then some PrescriptionTimingSlot.BEDTIME
  else if s = ("AS_NEEDED").toList then some PrescriptionTimingSlot.AS_NEEDED
  else if s = ("UNSPECIFIED").toList then some PrescriptionTimingSlot.UNSPECIFIED
  else none

/-- Length bounds of `symptomCheckResponseSchema` (mvp.ts lines 144-150)
on an already-decoded value. -/
def symptomCheckBoundsOk (r : SymptomCheckResponse) : Bool :=
  5 ≤ r.summary.length && r.summary.length ≤ 600 &&
  5 ≤ r.explanation.length && r.explanation.length ≤ 1000 &&
  5 ≤ r.recommendedAction.length && r.recommendedAction.length ≤ 600 &&
  10 ≤ r.disclaimer.length && r.disclaimer.length ≤ 400

/-- Model of `symptomCheckResponseSchema.safeParse` (mvp.ts lines 144-150,
1197): closed shape via `.strict()`, enum and length bounds. -/
def parseSymptomCheckResponse (j : Json) : Option SymptomCheckResponse :=
  match j with
  | Json.obj fields =>
    let allowed := [("summary").toList, ("triageLevel").toList, ("explanation").toList,
                    ("recommendedAction").toList, ("disclaimer").toList]
    if !(fields.all (fun p => p.1 ∈ allowed)) then none else
    match jLookup fields ("summary").toList with
    | none => none
    | some js =>
      match jStrBounded 5 600 js with
      | none => none
      | some summary =>
        match (jLookup fields ("triageLevel").toList).bind (fun v =>
            match v with
            | Json.str s => triageLevelOfString s
            | _ => none) with
        | none => none
        | some triageLevel =>
          match (jLookup fields ("explanation").toList).bind (jStrBounded 5 1000) with
          | none => none
          | some explanation =>
            match (jLookup fields ("recommendedAction").toList).bind (jStrBounded 5 600) with
            | none => none
            | some recommendedAction =>
              match (jLookup fields ("disclaimer").toList).bind (jStrBounded 10 400) with
              | none => none
              | some disclaimer =>
                some { summary := summary, triageLevel := triageLevel
                     , explanation := explanation, recommendedAction := recommendedAction
                     , disclaimer := disclaimer }
  | _ => none

/-- Length and count bounds of `prescriptionSimplifiedMedicineSchema`
(mvp.ts lines 187-193) on an already-decoded value. -/
def medicineBoundsOk (m : SimplifiedMedicine) : Bool :=
  1 ≤ m.medicineName.length && m.medicineName.length ≤ 160 &&
  1 ≤ m.dosage.length && m.dosage.length ≤ 160 &&
  1 ≤ m.duration.length && m.duration.length ≤ 160 &&
  1 ≤ m.timingSlots.length && m.timingSlots.length ≤ 8 &&
  m.instructions.length ≤ 8 &&
  m.instructions.all (fun i => 1 ≤ i.length && i.length ≤ 220)

/-- Length and count bounds of `prescriptionSimplifyResponseSchema`
(mvp.ts lines 195-203) on an already-decoded value. -/
def summaryBoundsOk (s : SimplifiedPrescriptionSummary) : Bool :=
  2 ≤ s.languageLabel.length && s.languageLabel.length ≤ 60 &&
  5 ≤ s.doctorExplanation.length && s.doctorExplanation.length ≤ 1200 &&
  1 ≤ s.medicines.length && s.medicines.length ≤ 12 &&
  s.medicines.all medicineBoundsOk &&
  s.warnings.length ≤ 10 && s.warnings.all (fun w => 1 ≤ w.length && w.length ≤ 220) &&
  s.hydrationTips.length ≤ 8 && s.hydrationTips.all (fun w => 1 ≤ w.length && w.length ≤ 220) &&
  s.generalAdvice.length ≤ 10 && s.generalAdvice.all (fun w => 1 ≤ w.length && w.length ≤ 220)

/-- Model of `prescriptionSimplifiedMedicineSchema.safeParse`: closed shape,
enum-valid timing slots, then the bounds. -/
def parsePrescriptionMedicine (j : Json) : Option SimplifiedMedicine :=
  match j with
  | Json.obj fields =>
    let allowed := [("medicineName").toList, ("dosage").toList, ("duration").toList,
                    ("timingSlots").toList, ("instructions").toList]
    if !(fields.all (fun p => p.1 ∈ allowed)) then none else
    match (jLookup fields ("medicineName").toList).bind (fun v =>
        match v with | Json.str s => some s | _ => none) with
    | none => none
    | some medicineName =>
      match (jLookup fields ("dosage").toList).bind (fun v =>
          match v with | Json.str s => some s | _ => none) with
      | none => none
      | some dosage =>
        match (jLookup fields ("duration").toList).bind (fun v =>
            match v with | Json.str s => some s | _ => none) with
        | none => none
        | some duration =>
          match (jLookup fields ("timingSlots").toList).bind (fun v =>
              match v with
              | Json.arr xs =>
                xs.mapM (fun x =>
                  match x with
                  | Json.str s => timingSlotOfString s
                  | _ => none)
              | _ => none) with
          | none => none
          | some timingSlots =>
            match (jLookup fields ("instructions").toList).bind (fun v =>
                match v with
                | Json.arr xs =>
                  xs.mapM (fun x =>
                    match x with
                    | Json.str s => some s
                    | _ => none)
                | _ => none) with
            | none => none
            | some instructions =>
              let m : SimplifiedMedicine :=
                { medicineName := medicineName, dosage := dosage, duration := duration
                , timingSlots := timingSlots, instructions := instructions }
              if medicineBoundsOk m then some m else none
  | _ => none

/-- Model of `prescriptionSimplifyResponseSchema.safeParse` (mvp.ts lines
195-203, 826): closed shape, enums, then the bounds. -/
def parsePrescriptionSummary (j : Json) : Option SimplifiedPrescriptionSummary :=
  match j with
  | Json.obj fields =>
    let allowed := [("languageCode").toList, ("languageLabel").toList,
                    ("doctorExplanation").toList, ("medicines").toList,
                    ("warnings").toList, ("hydrationTips").toList,
                    ("generalAdvice").toList]
    if !(fields.all (fun p => p.1 ∈ allowed)) then none else
    match (jLookup fields ("languageCode").toList).bind (fun v =>
        match v with
        | Json.str s => languageCodeOfString s
        | _ => none) with
    | none => none
    | some languageCode =>
      match (jLookup fields ("languageLabel").toList).bind (fun v =>
          match v with | Json.str s => some s | _ => none) with
      | none => none
      | some languageLabel =>
        match (jLookup fields ("doctorExplanation").toList).bind (fun v =>
            match v with | Json.str s => some s | _ => none) with
        | none => none
        | some doctorExplanation =>
          match (jLookup fields ("medicines").toList).bind (fun v =>
              match v with
              | Json.arr xs => xs.mapM parsePrescriptionMedicine
              | _ => none) with
          | none => none
          | some medicines =>
            match (jLookup fields ("warnings").toList).bind (fun v =>
                match v with
                | Json.arr xs => xs.mapM (fun x =>
                    match x with | Json.str s => some s | _ => none)
                | _ => none) with
            | none => none
            | some warnings =>
              match (jLookup fields ("hydrationTips").toList).bind (fun v =>
                  match v with
                  | Json.arr xs => xs.mapM (fun x =>
                      match x with | Json.str s => some s | _ => none)
                  | _ => none) with
              | none => none
              | some hydrationTips =>
                match (jLookup fields ("generalAdvice").toList).bind (fun v =>
                    match v with
                    | Json.arr xs => xs.mapM (fun x =>
                        match x with | Json.str s => some s | _ => none)
                    | _ => none) with
                | none => none
                | some generalAdvice =>
                  let s : SimplifiedPrescriptionSummary :=
                    { languageCode := languageCode, languageLabel := languageLabel
                    , doctorExplanation := doctorExplanation, medicines := medicines
                    , warnings := warnings, hydrationTips := hydrationTips
                    , generalAdvice := generalAdvice }
                  if summaryBoundsOk s then some s else none
  | _ => none

/-- Outcome of one call sequence of the external model adapter, at the branch
points of the source (`fetch` rejection and `response.json()` rejection are
exceptions; the rest end in a candidate text whose parse either succeeds
directly, succeeds on the extracted `{...}` block, or fails). -/
inductive AdapterOutcome where
  | fetchThrow (msg : List Char)
  | bodyJsonThrow (msg : List Char)
  | httpNotOk (status : Nat) (detail : List Char)
  | emptyText
  | parsedJson (j : Json)
  | wrappedJson (j : Json)
  | nonJson
  | wrappedBad

/-- Truth of "this adapter call returns (rather than throwing)". -/
def AdapterOutcome.returnsNormally : AdapterOutcome → Bool
  | AdapterOutcome.fetchThrow _ => false
  | AdapterOutcome.bodyJsonThrow _ => false
  | _ => true

/-- Model of `requestGeminiJson` (mvp.ts lines 517-567): `null` without a key;
`null` on non-2xx, empty candidate text, unparseable text without a `{...}`
block, or an unparseable `{...}` block (the nested try/catch); the parsed JSON
otherwise.  A `fetch` rejection (line 525) and a `response.json()` rejection
(line 552) are NOT caught and propagate to the caller. -/
def requestGeminiJson (apiKeyPresent : Bool) (outcome : AdapterOutcome) :
    Except (List Char) (Option Json) :=
  if !apiKeyPresent then Except.ok none else
  match outcome with
  | AdapterOutcome.fetchThrow msg => Except.error msg
  | AdapterOutcome.bodyJsonThrow msg => Except.error msg
  | AdapterOutcome.httpNotOk _ _ => Except.ok none
  | AdapterOutcome.emptyText => Except.ok none
  | AdapterOutcome.parsedJson j => Except.ok (some j)
  | AdapterOutcome.wrappedJson j => Except.ok (some j)
  | AdapterOutcome.nonJson => Except.ok none
  | AdapterOutcome.wrappedBad => Except.ok none

/-- Decimal digits of a natural number (JS number-to-string on the values
this code produces). -/
def natChars (n : Nat) : List Char :=
  if n = 0 then [ '0' ] else ((Nat.digits 10 n).reverse).map Nat.digitChar

/-- Narrative text of a summary (`prescriptionNarrativeText`, mvp.ts lines
569-580): explanation, all medicine instructions, warnings, hydration tips and
general advice joined by spaces, whitespace collapsed, trimmed. -/
def prescriptionNarrativeText (summary : SimplifiedPrescriptionSummary) : List Char :=
  trimWs (collapseWs (joinSpace
    (summary.doctorExplanation ::
      ((summary.medicines.map (fun m => m.instructions)).flatten ++
        summary.warnings ++ summary.hydrationTips ++ summary.generalAdvice))))

/-- Devanagari block `[ऀ-ॿ]` (mvp.ts line 442). -/
def isDevanagariCh (c : Char) : Bool := 'ऀ' ≤ c && c ≤ 'ॿ'

/-- Tamil block `[஀-௿]` (mvp.ts line 443). -/
def isTamilCh (c : Char) : Bool := '஀' ≤ c && c ≤ '௿'

/-- Bengali block `[ঀ-৿]` (mvp.ts line 444). -/
def isBengaliCh (c : Char) : Bool := 'ঀ' ≤ c && c ≤ '৿'

/-- Model of `prescriptionScriptRegexByLanguage` (mvp.ts lines 441-445). -/
def prescriptionScriptRegexByLanguage :
    PrescriptionLanguageCode → Option (Char → Bool)
  | PrescriptionLanguageCode.hi => some isDevanagariCh
  | PrescriptionLanguageCode.ta => some isTamilCh
  | PrescriptionLanguageCode.bn => some isBengaliCh
  | PrescriptionLanguageCode.en => none

/-- Model of `isPrescriptionLanguageAligned` (mvp.ts lines 582-592).
The script regex has NO global flag, so `narrative.match(scriptRegex)` is the
first-match array: its `.length` is `1` when any script character occurs and
the whole expression is `0` otherwise (`null ?? []`).  The Latin regex HAS the
`g` flag, so `latinCount` counts every Latin letter.  The comparison
`latinCount > scriptCount * 1.2` in IEEE doubles coincides with the exact
rational comparison `5 * latinCount > 6 * scriptCount` at these magnitudes. -/
def isPrescriptionLanguageAligned (summary : SimplifiedPrescriptionSummary)
    (language : PrescriptionLanguageCode) : Bool :=
  match language with
  | PrescriptionLanguageCode.en => true
  | _ =>
    match prescriptionScriptRegexByLanguage language with
    | none => true
    | some scriptTest =>
      let narrative := prescriptionNarrativeText summary
      let scriptCount : Nat := if narrative.any scriptTest then 1 else 0
      let latinCount : Nat := narrative.countP isAsciiLetter
      if scriptCount = 0 then false
      else if 5 * latinCount > 6 * scriptCount then false
      else true

/-- Alignment check as the spec words it (section 4.9): "count script-matching
vs. Latin characters across narrative fields.  Fails if zero script
characters, or Latin count exceeds 1.2x script count."  Stated here only to
compare with the source's `isPrescriptionLanguageAligned`. -/
def specLanguageAligned (summary : SimplifiedPrescriptionSummary)
    (language : PrescriptionLanguageCode) : Bool :=
  match prescriptionScriptRegexByLanguage language with
  | none => true
  | some scriptTest =>
    let narrative := prescriptionNarrativeText summary
    let scriptCount : Nat := narrative.countP scriptTest
    let latinCount : Nat := narrative.countP isAsciiLetter
    !(scriptCount = 0 || 5 * latinCount > 6 * scriptCount)

/-- Model of `coercePrescriptionLanguage` (mvp.ts lines 594-603). -/
def coercePrescriptionLanguage (summary : SimplifiedPrescriptionSummary)
    (language : PrescriptionLanguageCode) : SimplifiedPrescriptionSummary :=
  { summary with
    languageCode := language
  , languageLabel := prescriptionLanguageLabels language }

/-- Environment of one simplifier run: whether `GEMINI_API_KEY` is set, and
the outcome of each outbound call (a function of what is sent: the request for
the generation call, the summary to re-translate for the translation call). -/
structure SimplifierEnv where
  apiKeyPresent : Bool
  generateCall : PrescriptionSimplifyInput → AdapterOutcome
  translateCall : SimplifiedPrescriptionSummary → PrescriptionLanguageCode → AdapterOutcome

/-- Model of `translatePrescriptionSummaryToLanguage` (mvp.ts lines 605-641):
one adapter call; `null` and schema failures yield `none`; a valid result is
language-coerced. -/
def translatePrescriptionSummaryToLanguage (env : SimplifierEnv)
    (summary : SimplifiedPrescriptionSummary) (language : PrescriptionLanguageCode) :
    Except (List Char) (Option SimplifiedPrescriptionSummary) :=
  match requestGeminiJson env.apiKeyPresent (env.translateCall summary language) with
  | Except.error m => Except.error m
  | Except.ok none => Except.ok none
  | Except.ok (some translatedJson) =>
    match parsePrescriptionSummary translatedJson with
    | none => Except.ok none
    | some translated =>
      Except.ok (some (coercePrescriptionLanguage translated language))

/-- Model of `runPrescriptionSimplifier` (mvp.ts lines 767-843), paired with
the number of outbound adapter calls made. -/
def runPrescriptionSimplifier (env : SimplifierEnv)
    (input : PrescriptionSimplifyInput) :
    Except (List Char) SimplifiedPrescriptionSummary × Nat :=
  let fallback := fallbackPrescriptionSummary input
  if !env.apiKeyPresent then (Except.ok fallback, 0)
  else
    match requestGeminiJson env.apiKeyPresent (env.generateCall input) with
    | Except.error m => (Except.error m, 1)
    | Except.ok none => (Except.ok fallback, 1)
    | Except.ok (some parsedJson) =>
      match parsePrescriptionSummary parsedJson with
      | none => (Except.ok fallback, 1)
      | some parsed =>
        let summary := coercePrescriptionLanguage parsed input.language
        if isPrescriptionLanguageAligned summary input.language then
          (Except.ok summary, 1)
        else
          match translatePrescriptionSummaryToLanguage env summary input.language with
          | Except.error m => (Except.error m, 2)
          | Except.ok (some translated) =>
            if isPrescriptionLanguageAligned translated input.language then
              (Except.ok translated, 2)
            else (Except.ok fallback, 2)
          | Except.ok none => (Except.ok fallback, 2)

/-- HTTP-level result of `POST /ai/prescription-simplify`. -/
inductive SimplifyRouteResult where
  | success (summary : SimplifiedPrescriptionSummary)
  | errorJson (message : List Char) (status : Nat)
deriving DecidableEq

/-- Model of the `/ai/prescription-simplify` handler's success/catch paths
(mvp.ts lines 2048-2064): an exception from the pipeline is caught and turned
into a 503 error response carrying the exception message. -/
def prescriptionSimplifyRoute (env : SimplifierEnv)
    (input : PrescriptionSimplifyInput) : SimplifyRouteResult :=
  match (runPrescriptionSimplifier env input).1 with
  | Except.ok summary => SimplifyRouteResult.success summary
  | Except.error m => SimplifyRouteResult.errorJson m 503

/-- Input of the triage pipeline (`symptomCheckSchema`, mvp.ts lines 129-135). -/
structure TriageInput where
  symptoms : List Char
  age : Option Nat
  duration : Option (List Char)
  knownConditions : Option (List (List Char))
  additionalContext : Option (List Char)
deriving DecidableEq, Repr

/-- Normalization step of `runSymptomTriage` (mvp.ts lines 1115-1118). -/
def normalizedGateInput (input : TriageInput) : GateInput :=
  { symptoms := sanitizeTriageText input.symptoms
  , additionalContext := input.additionalContext.map sanitizeTriageText }

/-- Environment of one triage run: whether `GEMINI_API_KEY` is set, and the
outcome of the inline model call (a function of the full request, which the
source serializes into the user prompt). -/
structure TriageEnv where
  apiKeyPresent : Bool
  triageCall : TriageInput → AdapterOutcome

/-- Model of `runSymptomTriage` (mvp.ts lines 1114-1203), paired with the
number of outbound model calls.  Unlike `requestGeminiJson`, the inline model
path of this function throws on every failure (missing key, non-2xx, empty
output, non-JSON output, unparseable `{...}` block, schema mismatch). -/
def runSymptomTriage (env : TriageEnv) (input : TriageInput) :
    Except (List Char) SymptomCheckResponse × Nat :=
  let normalizedInput := normalizedGateInput input
  match ruleBasedEmergencyCheck normalizedInput with
  | some emergencyReason => (Except.ok (createRuleBasedRedResponse emergencyReason), 0)
  | none =>
    if ruleBasedSafetyRefusalCheck normalizedInput then
      (Except.ok createRuleBasedSafetyRefusalResponse, 0)
    else if !env.apiKeyPresent then
      (Except.error ("GEMINI_API_KEY is missing").toList, 0)
    else
      match env.triageCall input with
      | AdapterOutcome.fetchThrow msg => (Except.error msg, 1)
      | AdapterOutcome.bodyJsonThrow msg => (Except.error msg, 1)
      | AdapterOutcome.httpNotOk status detail =>
        (Except.error (("Gemini request failed: ").toList ++ natChars status ++ ' ' :: detail), 1)
      | AdapterOutcome.emptyText =>
        (Except.error ("Gemini returned empty output").toList, 1)
      | AdapterOutcome.nonJson =>
        (Except.error ("Gemini returned non-JSON output").toList, 1)
      | AdapterOutcome.wrappedBad =>
        (Except.error ("SyntaxError: unexpected token in JSON").toList, 1)
      | AdapterOutcome.parsedJson j =>
        (match parseSymptomCheckResponse j with
         | some parsed => (Except.ok parsed, 1)
         | none => (Except.error ("Gemini output did not match required format").toList, 1))
      | AdapterOutcome.wrappedJson j =>
        (match parseSymptomCheckResponse j with
         | some parsed => (Except.ok parsed, 1)
         | none => (Except.error ("Gemini output did not match required format").toList, 1))

/-- Model of `durationDaysFromText` (patient-portal component, part_004 lines
224-235): first `(\d+)\s*(?:day|days)/i`, then weeks times 7, then months
times 30, else `null`. -/
def numUnitTryAt (units : List (List Char)) (suf : List Char) : Option (List Char) :=
  let ds := suf.takeWhile isDigitCh
  if ds.isEmpty then none else
  let r1 := suf.drop ds.length
  let ws := r1.takeWhile isJsWs
  let r2 := r1.drop ws.length
  if units.any (fun u => u.isPrefixOf r2) then some ds else none

def numUnitFirstMatch (units : List (List Char)) (l : List Char) :
    Option (List Char) :=
  scanPos (numUnitTryAt units) (lowerStr l)

/-- Days derived from a duration string (weeks times 7, months times 30). -/
def durationDaysFromText (value : List Char) : Option Nat :=
  match numUnitFirstMatch [("day").toList, ("days").toList] value with
  | some ds => some (parseNatDigits ds)
  | none =>
  match numUnitFirstMatch [("week").toList, ("weeks").toList] value with
  | some ds => some (parseNatDigits ds * 7)
  | none =>
  match numUnitFirstMatch [("month").toList, ("months").toList] value with
  | some ds => some (parseNatDigits ds * 30)
  | none => none

/-- Well-formedness of a gate keyword as written in the source lists: every
whitespace character is a plain space followed by a non-whitespace character
(so no double spaces and no trailing space). -/
def okKeywordAux : List Char → Bool
  | [] => true
  | [c] => !isJsWs c
  | c :: d :: rest =>
    (!isJsWs c || (c = ' ' && !isJsWs d)) && okKeywordAux (d :: rest)

/-- Full keyword well-formedness: nonempty, does not start with whitespace,
and `okKeywordAux` throughout. -/
def okKeyword (l : List Char) : Bool :=
  match l with
  | [] => false
  | c :: _ => !isJsWs c && okKeywordAux l


/-! Lemmas: whitespace collapsing and trimming preserve well-formed keyword
occurrences, and commute with lowercasing. -/

theorem collapseWsAux_cons (b : Bool) (c : Char) (l : List Char) :
    collapseWsAux b (c :: l) =
      if isJsWs c then
        (if b then collapseWsAux true l else ' ' :: collapseWsAux true l)
      else c :: collapseWsAux false l := rfl

theorem collapseWsAux_flag_of_head (c : Char) (hc : isJsWs c = false) (l : List Char) (b : Bool) :
    collapseWsAux b (c :: l) = c :: collapseWsAux false l := by
  rw [collapseWsAux_cons, hc]
  simp

theorem collapseWsAux_keyword (kw : List Char) (h : okKeywordAux kw = true) (v : List Char) :
    collapseWsAux false (kw ++ v) = kw ++ collapseWsAux false v := by
  induction kw with
  | nil => simp
  | cons c rest ih =>
    cases rest with
    | nil =>
      have hc : isJsWs c = false := by simpa [okKeywordAux] using h
      simp [collapseWsAux_flag_of_head c hc]
    | cons d rest2 =>
      rw [okKeywordAux] at h
      simp only [Bool.and_eq_true] at h
      obtain ⟨h1, h2⟩ := h
      have ih2 := ih h2
      simp only [List.cons_append] at ih2 ⊢
      simp only [Bool.or_eq_true] at h1
      rcases h1 with hne | hsp
      · have hc : isJsWs c = false := by simpa using hne
        rw [collapseWsAux_flag_of_head c hc, ih2]
      · simp only [Bool.and_eq_true] at hsp
        obtain ⟨hceq, hd⟩ := hsp
        have hceq' : c = ' ' := by simpa using hceq
        have hd' : isJsWs d = false := by simpa using hd
        subst hceq'
        rw [collapseWsAux_cons]
        have hws : isJsWs ' ' = true := by decide
        rw [hws]
        simp only [if_true, if_false, Bool.false_eq_true]
        rw [collapseWsAux_flag_of_head d hd'] at ih2 ⊢
        simp only [List.cons.injEq, true_and] at ih2
        rw [ih2]

theorem infix_collapseWsAux (kw : List Char) (hk : okKeyword kw = true) :
    ∀ (u : List Char) (b : Bool) (v : List Char),
      kw <:+: collapseWsAux b (u ++ (kw ++ v)) := by
  intro u
  induction u with
  | nil =>
    intro b v
    match kw, hk with
    | c :: rest, hk =>
      rw [okKeyword] at hk
      simp only [Bool.and_eq_true] at hk
      obtain ⟨hc, haux⟩ := hk
      have hc' : isJsWs c = false := by simpa using hc
      rw [List.nil_append, List.cons_append, collapseWsAux_flag_of_head c hc' _ b]
      have heq := collapseWsAux_keyword (c :: rest) haux v
      rw [List.cons_append, collapseWsAux_flag_of_head c hc'] at heq
      simp only [List.cons_append, List.cons.injEq, true_and] at heq
      rw [heq]
      exact ⟨[], collapseWsAux false v, by simp⟩
  | cons c u' ih =>
    intro b v
    by_cases hc : isJsWs c = true
    · rw [List.cons_append, collapseWsAux_cons, hc]
      rw [if_pos rfl]
      cases b with
      | true => exact ih true v
      | false =>
        obtain ⟨x, y, hxy⟩ := ih true v
        exact ⟨' ' :: x, y, by rw [← hxy]; simp⟩
    · have hc' : isJsWs c = false := by simpa using hc
      rw [List.cons_append, collapseWsAux_flag_of_head c hc']
      obtain ⟨x, y, hxy⟩ := ih false v
      exact ⟨c :: x, y, by rw [← hxy]; simp⟩

theorem infix_collapseWs (kw l : List Char) (hk : okKeyword kw = true)
    (h : kw <:+: l) : kw <:+: collapseWs l := by
  obtain ⟨u, v, rfl⟩ := h
  rw [collapseWs, List.append_assoc]
  exact infix_collapseWsAux kw hk u false v

theorem head_not_ws_of_okKeyword (kw : List Char) (hk : okKeyword kw = true) :
    ∀ c, kw.head? = some c → isJsWs c = false := by
  match kw with
  | [] => simp [okKeyword] at hk
  | a :: rest =>
    intro c hc
    simp only [List.head?_cons, Option.some.injEq] at hc
    subst hc
    rw [okKeyword] at hk
    simp only [Bool.and_eq_true] at hk
    simpa using hk.1

theorem getLast_not_ws_of_okKeywordAux (kw : List Char) (h : okKeywordAux kw = true) :
    ∀ c, kw.getLast? = some c → isJsWs c = false := by
  induction kw with
  | nil => simp
  | cons a rest ih =>
    intro c hc
    cases rest with
    | nil =>
      simp only [List.getLast?_singleton, Option.some.injEq] at hc
      subst hc
      simpa [okKeywordAux] using h
    | cons d rest2 =>
      rw [okKeywordAux] at h
      simp only [Bool.and_eq_true] at h
      have htail : (d :: rest2).getLast? = some c := by
        rw [List.getLast?_cons_cons] at hc
        exact hc
      exact ih h.2 c htail

theorem infix_dropWhile_of_head (kw l : List Char)
    (hhead : ∀ c, kw.head? = some c → isJsWs c = false)
    (h : kw <:+: l) : kw <:+: l.dropWhile isJsWs := by
  obtain ⟨u, v, rfl⟩ := h
  induction u with
  | nil =>
    match kw with
    | [] => simp
    | c :: rest =>
      have hc : isJsWs c = false := hhead c rfl
      rw [List.nil_append, List.cons_append, List.dropWhile_cons_of_neg (by simp [hc])]
      exact ⟨[], v, by simp⟩
  | cons a u' ih =>
    simp only [List.cons_append]
    by_cases ha : isJsWs a = true
    · rw [List.dropWhile_cons_of_pos ha]
      exact ih
    · rw [List.dropWhile_cons_of_neg ha]
      exact ⟨a :: u', v, by simp⟩

theorem infix_trimWs (kw l : List Char) (hk : okKeyword kw = true)
    (h : kw <:+: l) : kw <:+: trimWs l := by
  have h1 : kw <:+: l.dropWhile isJsWs :=
    infix_dropWhile_of_head kw l (head_not_ws_of_okKeyword kw hk) h
  have h2 : kw.reverse <:+: (l.dropWhile isJsWs).reverse :=
    List.reverse_infix.mpr h1
  have hlast : ∀ c, kw.reverse.head? = some c → isJsWs c = false := by
    intro c hc
    rw [List.head?_reverse] at hc
    match kw, hk, hc with
    | a :: rest, hk, hc =>
      rw [okKeyword] at hk
      simp only [Bool.and_eq_true] at hk
      exact getLast_not_ws_of_okKeywordAux (a :: rest) hk.2 c hc
  have h3 : kw.reverse <:+: ((l.dropWhile isJsWs).reverse.dropWhile isJsWs) :=
    infix_dropWhile_of_head kw.reverse _ hlast h2
  rw [trimWs]
  calc kw = kw.reverse.reverse := by simp
    _ <:+: ((l.dropWhile isJsWs).reverse.dropWhile isJsWs).reverse :=
        List.reverse_infix.mpr h3

theorem infix_sanitizeTriageText (kw l : List Char) (hk : okKeyword kw = true)
    (h : kw <:+: l) : kw <:+: sanitizeTriageText l :=
  infix_trimWs kw (collapseWs l) hk (infix_collapseWs kw l hk h)

theorem toNat_ofNat_small (n : Nat) (h2 : n ≤ 122) : (Char.ofNat n).toNat = n := by
  unfold Char.ofNat
  split
  · rfl
  · next h =>
    exfalso
    simp [Nat.isValidChar] at h
    omega

theorem isJsWs_eq_false_of_toNat (c : Char)
    (h : c.toNat ≠ 32 ∧ c.toNat ≠ 9 ∧ c.toNat ≠ 10 ∧ c.toNat ≠ 13 ∧ c.toNat ≠ 11 ∧
      c.toNat ≠ 12 ∧ c.toNat ≠ 160 ∧ c.toNat ≠ 8232 ∧ c.toNat ≠ 8233 ∧ c.toNat ≠ 65279) :
    isJsWs c = false := by
  rw [← Bool.not_eq_true]
  intro hw
  simp only [isJsWs, Bool.or_eq_true, decide_eq_true_eq] at hw
  rcases hw with (((((((((h' | h') | h') | h') | h') | h') | h') | h') | h') | h') <;>
    (subst h'; revert h; decide)

theorem toLower_eq_of_ws (c : Char) (h : isJsWs c = true) : Char.toLower c = c := by
  simp only [isJsWs, Bool.or_eq_true, decide_eq_true_eq] at h
  rcases h with (((((((((h' | h') | h') | h') | h') | h') | h') | h') | h') | h') <;>
    (subst h'; decide)

theorem isJsWs_toLower (c : Char) : isJsWs (Char.toLower c) = isJsWs c := by
  by_cases h : c.toNat ≥ 65 ∧ c.toNat ≤ 90
  · have hdef : Char.toLower c =
        if c.toNat ≥ 65 ∧ c.toNat ≤ 90 then Char.ofNat (c.toNat + 32) else c := rfl
    have hlow : Char.toLower c = Char.ofNat (c.toNat + 32) := by rw [hdef, if_pos h]
    have ht : (Char.toLower c).toNat = c.toNat + 32 := by
      rw [hlow]; exact toNat_ofNat_small _ (by omega)
    have h1 : isJsWs (Char.toLower c) = false :=
      isJsWs_eq_false_of_toNat _ (by rw [ht]; omega)
    have h2 : isJsWs c = false := isJsWs_eq_false_of_toNat _ (by omega)
    rw [h1, h2]
  · have hdef : Char.toLower c =
        if c.toNat ≥ 65 ∧ c.toNat ≤ 90 then Char.ofNat (c.toNat + 32) else c := rfl
    rw [hdef, if_neg h]

theorem lowerStr_collapseWsAux (l : List Char) :
    ∀ b, collapseWsAux b (lowerStr l) = lowerStr (collapseWsAux b l) := by
  induction l with
  | nil => intro b; rfl
  | cons c rest ih =>
    intro b
    have hmap : lowerStr (c :: rest) = Char.toLower c :: lowerStr rest := rfl
    rw [hmap, collapseWsAux_cons, collapseWsAux_cons, isJsWs_toLower]
    by_cases hc : isJsWs c = true
    · rw [if_pos hc, if_pos hc]
      cases b with
      | true =>
        rw [if_pos rfl, if_pos rfl]
        exact ih true
      | false =>
        rw [if_neg (by decide), if_neg (by decide)]
        show _ = lowerStr (' ' :: collapseWsAux true rest)
        have hsp : lowerStr (' ' :: collapseWsAux true rest) =
            Char.toLower ' ' :: lowerStr (collapseWsAux true rest) := rfl
        rw [hsp, show Char.toLower ' ' = ' ' from by decide, ih true]
    · rw [if_neg hc, if_neg hc]
      show _ = lowerStr (c :: collapseWsAux false rest)
      have hcc : lowerStr (c :: collapseWsAux false rest) =
          Char.toLower c :: lowerStr (collapseWsAux false rest) := rfl
      rw [hcc, ih false]

theorem lowerStr_dropWhile (l : List Char) :
    (lowerStr l).dropWhile isJsWs = lowerStr (l.dropWhile isJsWs) := by
  induction l with
  | nil => rfl
  | cons c rest ih =>
    show (Char.toLower c :: lowerStr rest).dropWhile isJsWs = _
    by_cases hc : isJsWs c = true
    · rw [List.dropWhile_cons_of_pos (by rw [isJsWs_toLower]; exact hc),
        List.dropWhile_cons_of_pos hc]
      exact ih
    · rw [List.dropWhile_cons_of_neg (by rw [isJsWs_toLower]; exact hc),
        List.dropWhile_cons_of_neg hc]
      rfl

theorem lowerStr_reverse (l : List Char) : (lowerStr l).reverse = lowerStr l.reverse := by
  simp [lowerStr, List.map_reverse]

theorem lowerStr_trimWs (l : List Char) : trimWs (lowerStr l) = lowerStr (trimWs l) := by
  rw [trimWs, trimWs, lowerStr_dropWhile, lowerStr_reverse, lowerStr_dropWhile,
    lowerStr_reverse]

theorem lowerStr_sanitize (l : List Char) :
    sanitizeTriageText (lowerStr l) = lowerStr (sanitizeTriageText l) := by
  rw [sanitizeTriageText, sanitizeTriageText, collapseWs, collapseWs,
    lowerStr_collapseWsAux, lowerStr_trimWs]

theorem infix_lower_sanitize (kw l : List Char) (hk : okKeyword kw = true)
    (h : kw <:+: lowerStr l) : kw <:+: lowerStr (sanitizeTriageText l) := by
  rw [← lowerStr_sanitize]
  exact infix_sanitizeTriageText kw (lowerStr l) hk h

theorem infix_app_left {x a : List Char} (b : List Char) (h : x <:+: a) :
    x <:+: a ++ b := by
  obtain ⟨u, v, rfl⟩ := h
  exact ⟨u, v ++ b, by simp⟩

theorem infix_app_right {x b : List Char} (a : List Char) (h : x <:+: b) :
    x <:+: a ++ b := by
  obtain ⟨u, v, rfl⟩ := h
  exact ⟨a ++ u, v, by simp⟩

theorem emergencyKeywords_ok : emergencyKeywords.all okKeyword = true := by decide

theorem dosageRequestKeywords_ok : dosageRequestKeywords.all okKeyword = true := by decide

theorem diagnosisRequestKeywords_ok : diagnosisRequestKeywords.all okKeyword = true := by
  decide

theorem safetyBypassKeywords_ok : safetyBypassKeywords.all okKeyword = true := by decide

/-- Occurrence of a well-formed keyword in the raw symptoms or context implies
occurrence in the combined, sanitized, lowercased gate text. -/
theorem infix_combinedGateText (input : TriageInput) (kw : List Char)
    (hok : okKeyword kw = true)
    (hin : kw <:+: lowerStr input.symptoms ∨
      (∃ ctx, input.additionalContext = some ctx ∧ kw <:+: lowerStr ctx)) :
    kw <:+: combinedGateText (normalizedGateInput input) := by
  have hsplit :
      combinedGateText (normalizedGateInput input) =
        lowerStr (sanitizeTriageText input.symptoms) ++
          lowerStr (' ' :: (input.additionalContext.map sanitizeTriageText).getD []) := by
    rw [combinedGateText, normalizedGateInput]
    exact List.map_append Char.toLower _ _
  rcases hin with hsym | ⟨ctx, hctx, hc⟩
  · rw [hsplit]
    exact infix_app_left _ (infix_lower_sanitize kw input.symptoms hok hsym)
  · rw [hsplit, hctx]
    have h1 : kw <:+: lowerStr (sanitizeTriageText ctx) :=
      infix_lower_sanitize kw ctx hok hc
    have h2 : kw <:+: lowerStr (' ' :: sanitizeTriageText ctx) := by
      obtain ⟨u, v, huv⟩ := h1
      refine ⟨Char.toLower ' ' :: u, v, ?_⟩
      have hconv : lowerStr (' ' :: sanitizeTriageText ctx) =
          Char.toLower ' ' :: lowerStr (sanitizeTriageText ctx) := rfl
      rw [hconv, ← huv]
      simp
    exact infix_app_right _ h2

/-- Keyword occurrence makes the emergency gate return a matched reason. -/
theorem emergency_gate_fires (input : TriageInput) (kw : List Char)
    (hkw : kw ∈ emergencyKeywords)
    (hin : kw <:+: lowerStr input.symptoms ∨
      (∃ ctx, input.additionalContext = some ctx ∧ kw <:+: lowerStr ctx)) :
    ∃ reason, ruleBasedEmergencyCheck (normalizedGateInput input) = some reason ∧
      reason ∈ emergencyKeywords ∧
      reason <:+: combinedGateText (normalizedGateInput input) := by
  have hok : okKeyword kw = true :=
    List.all_eq_true.mp emergencyKeywords_ok kw hkw
  have hcomb : kw <:+: combinedGateText (normalizedGateInput input) :=
    infix_combinedGateText input kw hok hin
  set gi := normalizedGateInput input with hgi
  match hfind : emergencyKeywords.find?
      (fun keyword => strIncludes (combinedGateText gi) keyword) with
  | none =>
    exfalso
    have := List.find?_eq_none.mp hfind kw hkw
    rw [strIncludes] at this
    simp only [decide_eq_true_eq] at this
    exact this hcomb
  | some reason =>
    refine ⟨reason, ?_, List.mem_of_find?_eq_some hfind, ?_⟩
    · rw [ruleBasedEmergencyCheck, hfind]
    · have := List.find?_some hfind
      rw [strIncludes] at this
      simpa using this

/-- C1: a triage request whose symptoms or additional context contains one of
the fixed emergency phrases gets the deterministic rule-based RED result — the
explanation names the matched phrase, the recommended action contains the
national emergency number 112, and zero external model calls are made,
whatever the model environment is. -/
theorem triage_emergency_phrase_short_circuits_red
    (env : TriageEnv) (input : TriageInput) (kw : List Char)
    (hkw : kw ∈ emergencyKeywords)
    (hin : kw <:+: lowerStr input.symptoms ∨
      (∃ ctx, input.additionalContext = some ctx ∧ kw <:+: lowerStr ctx)) :
    ∃ reason,
      ruleBasedEmergencyCheck (normalizedGateInput input) = some reason ∧
      runSymptomTriage env input = (Except.ok (createRuleBasedRedResponse reason), 0) ∧
      (createRuleBasedRedResponse reason).triageLevel = TriageLevel.RED ∧
      reason <:+: (createRuleBasedRedResponse reason).explanation ∧
      ("112").toList <:+: (createRuleBasedRedResponse reason).recommendedAction := by
  obtain ⟨reason, hr, hmem, hinc⟩ := emergency_gate_fires input kw hkw hin
  refine ⟨reason, hr, ?_, rfl, ?_, ?_⟩
  · rw [runSymptomTriage]
    rw [hr]
  · exact ⟨("The message includes emergency indicators (").toList,
      (") that can be life-threatening.").toList, rfl⟩
  · exact ⟨("Call emergency services now (").toList,
      (") or go to the nearest emergency department immediately.").toList, rfl⟩

/-- Witness for C1 at a concrete request ("severe chest pain" contains the
emergency phrase "chest pain") and a concrete model-free environment. -/
theorem triage_emergency_phrase_short_circuits_red_witness :
    ∃ reason,
      ruleBasedEmergencyCheck (normalizedGateInput
        ⟨("severe chest pain since morning").toList, some 40, none, none, none⟩) =
          some reason ∧
      runSymptomTriage ⟨false, fun _ => AdapterOutcome.nonJson⟩
        ⟨("severe chest pain since morning").toList, some 40, none, none, none⟩ =
          (Except.ok (createRuleBasedRedResponse reason), 0) ∧
      (createRuleBasedRedResponse reason).triageLevel = TriageLevel.RED ∧
      reason <:+: (createRuleBasedRedResponse reason).explanation ∧
      ("112").toList <:+: (createRuleBasedRedResponse reason).recommendedAction :=
  triage_emergency_phrase_short_circuits_red
    ⟨false, fun _ => AdapterOutcome.nonJson⟩
    ⟨("severe chest pain since morning").toList, some 40, none, none, none⟩
    (("chest pain").toList)
    (by decide)
    (Or.inl (by decide))

/-- Keyword occurrence makes the safety-refusal gate fire. -/
theorem refusal_gate_fires (input : TriageInput) (kw : List Char)
    (hkw : kw ∈ dosageRequestKeywords ++ diagnosisRequestKeywords ++ safetyBypassKeywords)
    (hin : kw <:+: lowerStr input.symptoms ∨
      (∃ ctx, input.additionalContext = some ctx ∧ kw <:+: lowerStr ctx)) :
    ruleBasedSafetyRefusalCheck (normalizedGateInput input) = true := by
  have hok : okKeyword kw = true := by
    rcases List.mem_append.mp hkw with h | h
    · rcases List.mem_append.mp h with h2 | h2
      · exact List.all_eq_true.mp dosageRequestKeywords_ok kw h2
      · exact List.all_eq_true.mp diagnosisRequestKeywords_ok kw h2
    · exact List.all_eq_true.mp safetyBypassKeywords_ok kw h
  have hcomb : kw <:+: combinedGateText (normalizedGateInput input) :=
    infix_combinedGateText input kw hok hin
  have hinc : strIncludes (combinedGateText (normalizedGateInput input)) kw = true := by
    rw [strIncludes]
    exact decide_eq_true hcomb
  rw [ruleBasedSafetyRefusalCheck]
  rcases List.mem_append.mp hkw with h | h
  · rcases List.mem_append.mp h with h2 | h2
    · have : dosageRequestKeywords.any
          (fun keyword => strIncludes (combinedGateText (normalizedGateInput input)) keyword) =
            true :=
        List.any_eq_true.mpr ⟨kw, h2, hinc⟩
      simp [this]
    · have : diagnosisRequestKeywords.any
          (fun keyword => strIncludes (combinedGateText (normalizedGateInput input)) keyword) =
            true :=
        List.any_eq_true.mpr ⟨kw, h2, hinc⟩
      simp [this]
  · have : safetyBypassKeywords.any
        (fun keyword => strIncludes (combinedGateText (normalizedGateInput input)) keyword) =
          true :=
      List.any_eq_true.mpr ⟨kw, h, hinc⟩
    simp [this]

/-- C5: a triage request containing a dosage-request, diagnosis-request or
safety-bypass phrase, on which the emergency gate found no match, gets the
fixed YELLOW safety-refusal result with zero external model calls; the gate
only runs after the emergency gate returned no match. -/
theorem triage_safety_refusal_short_circuits_yellow
    (env : TriageEnv) (input : TriageInput) (kw : List Char)
    (hkw : kw ∈ dosageRequestKeywords ++ diagnosisRequestKeywords ++ safetyBypassKeywords)
    (hin : kw <:+: lowerStr input.symptoms ∨
      (∃ ctx, input.additionalContext = some ctx ∧ kw <:+: lowerStr ctx))
    (hnoemerg : ruleBasedEmergencyCheck (normalizedGateInput input) = none) :
    runSymptomTriage env input = (Except.ok createRuleBasedSafetyRefusalResponse, 0) ∧
    createRuleBasedSafetyRefusalResponse.triageLevel = TriageLevel.YELLOW ∧
    ("within 24 hours").toList <:+:
      createRuleBasedSafetyRefusalResponse.recommendedAction ∧
    ("cannot provide diagnosis, dosing").toList <:+:
      createRuleBasedSafetyRefusalResponse.explanation := by
  have href := refusal_gate_fires input kw hkw hin
  refine ⟨?_, rfl, by decide, by decide⟩
  rw [runSymptomTriage, hnoemerg, href]
  simp

/-- Witness for C5 at the spec's example request "what dosage of paracetamol". -/
theorem triage_safety_refusal_short_circuits_yellow_witness :
    runSymptomTriage ⟨true, fun _ => AdapterOutcome.nonJson⟩
      ⟨("what dosage of paracetamol should i take").toList, none, none, none, none⟩ =
        (Except.ok createRuleBasedSafetyRefusalResponse, 0) ∧
    createRuleBasedSafetyRefusalResponse.triageLevel = TriageLevel.YELLOW ∧
    ("within 24 hours").toList <:+:
      createRuleBasedSafetyRefusalResponse.recommendedAction ∧
    ("cannot provide diagnosis, dosing").toList <:+:
      createRuleBasedSafetyRefusalResponse.explanation :=
  triage_safety_refusal_short_circuits_yellow
    ⟨true, fun _ => AdapterOutcome.nonJson⟩
    ⟨("what dosage of paracetamol should i take").toList, none, none, none, none⟩
    (("dosage").toList)
    (by decide)
    (Or.inl (by decide))
    (by decide)

/-- C6: concrete oxygen-saturation behavior of the emergency gate — "spo2 88"
and "oxygen is 88%" both match the oxygen rule (captured value 88 below 90)
and produce the RED short-circuit; "spo2 95" alone matches neither an
emergency phrase nor the below-90 oxygen rule. -/
theorem oxygen_gate_concrete_behavior :
    ruleBasedEmergencyCheck ⟨("spo2 88").toList, none⟩ =
      some (("oxygen level below 90%").toList) ∧
    ruleBasedEmergencyCheck ⟨("oxygen is 88%").toList, none⟩ =
      some (("oxygen level below 90%").toList) ∧
    ruleBasedEmergencyCheck ⟨("spo2 95").toList, none⟩ = none ∧
    emergencyKeywords.all
      (fun kw => !strIncludes (combinedGateText ⟨("spo2 95").toList, none⟩) kw) = true ∧
    runSymptomTriage ⟨false, fun _ => AdapterOutcome.nonJson⟩
      ⟨("spo2 88").toList, none, none, none, none⟩ =
        (Except.ok (createRuleBasedRedResponse (("oxygen level below 90%").toList)), 0) ∧
    (createRuleBasedRedResponse (("oxygen level below 90%").toList)).triageLevel =
      TriageLevel.RED :=
  ⟨rfl, rfl, rfl, by decide, rfl, rfl⟩

/-- C10: the rule-based gates read only `symptoms` and `additionalContext`:
requests agreeing on those two fields get identical gate outcomes whatever
their `age`, `duration` and `knownConditions` are; and a request carrying the
emergency phrase "seizure" only in `duration` and `knownConditions` passes
both gates and reaches the model stage instead of short-circuiting. -/
theorem gates_read_only_symptoms_and_context
    (i1 i2 : TriageInput) (hsym : i1.symptoms = i2.symptoms)
    (hctx : i1.additionalContext = i2.additionalContext) :
    ruleBasedEmergencyCheck (normalizedGateInput i1) =
      ruleBasedEmergencyCheck (normalizedGateInput i2) ∧
    ruleBasedSafetyRefusalCheck (normalizedGateInput i1) =
      ruleBasedSafetyRefusalCheck (normalizedGateInput i2) ∧
    ruleBasedEmergencyCheck (normalizedGateInput
      ⟨("mild rash on the arm today").toList, some 30,
        some (("since the seizure yesterday").toList),
        some [("seizure").toList], none⟩) = none ∧
    ruleBasedSafetyRefusalCheck (normalizedGateInput
      ⟨("mild rash on the arm today").toList, some 30,
        some (("since the seizure yesterday").toList),
        some [("seizure").toList], none⟩) = false ∧
    runSymptomTriage ⟨false, fun _ => AdapterOutcome.nonJson⟩
      ⟨("mild rash on the arm today").toList, some 30,
        some (("since the seizure yesterday").toList),
        some [("seizure").toList], none⟩ =
      (Except.error ("GEMINI_API_KEY is missing").toList, 0) := by
  have heq : normalizedGateInput i1 = normalizedGateInput i2 := by
    rw [normalizedGateInput, normalizedGateInput, hsym, hctx]
  exact ⟨by rw [heq], by rw [heq], rfl, rfl, rfl⟩

/-- Witness for C10: same symptoms and context, different age, duration and
known conditions. -/
theorem gates_read_only_symptoms_and_context_witness :
    ruleBasedEmergencyCheck (normalizedGateInput
      ⟨("mild headache since morning").toList, some 25, some (("2 days").toList),
        some [], none⟩) =
      ruleBasedEmergencyCheck (normalizedGateInput
        ⟨("mild headache since morning").toList, some 70, some (("seizure").toList),
          some [("seizure").toList], none⟩) ∧
    ruleBasedSafetyRefusalCheck (normalizedGateInput
      ⟨("mild headache since morning").toList, some 25, some (("2 days").toList),
        some [], none⟩) =
      ruleBasedSafetyRefusalCheck (normalizedGateInput
        ⟨("mild headache since morning").toList, some 70, some (("seizure").toList),
          some [("seizure").toList], none⟩) ∧
    ruleBasedEmergencyCheck (normalizedGateInput
      ⟨("mild rash on the arm today").toList, some 30,
        some (("since the seizure yesterday").toList),
        some [("seizure").toList], none⟩) = none ∧
    ruleBasedSafetyRefusalCheck (normalizedGateInput
      ⟨("mild rash on the arm today").toList, some 30,
        some (("since the seizure yesterday").toList),
        some [("seizure").toList], none⟩) = false ∧
    runSymptomTriage ⟨false, fun _ => AdapterOutcome.nonJson⟩
      ⟨("mild rash on the arm today").toList, some 30,
        some (("since the seizure yesterday").toList),
        some [("seizure").toList], none⟩ =
      (Except.error ("GEMINI_API_KEY is missing").toList, 0) :=
  gates_read_only_symptoms_and_context
    ⟨("mild headache since morning").toList, some 25, some (("2 days").toList),
      some [], none⟩
    ⟨("mild headache since morning").toList, some 70, some (("seizure").toList),
      some [("seizure").toList], none⟩
    rfl rfl

/-- C2 counterexample: a network-level `fetch` rejection is not caught by
`requestGeminiJson` and surfaces as an exception instead of `null`. -/
theorem requestGeminiJson_network_error_throws :
    requestGeminiJson true (AdapterOutcome.fetchThrow (("TypeError: fetch failed").toList)) =
      Except.error (("TypeError: fetch failed").toList) := rfl

/-- C2 amended: a missing key, a non-2xx response, an empty candidate text and
every candidate-text parse failure yield `null` without an exception; only the
two uncaught rejection points (`fetch` itself and `response.json()`) throw. -/
theorem requestGeminiJson_null_on_soft_failures (apiKeyPresent : Bool) (status : Nat)
    (detail : List Char) (outcome : AdapterOutcome) :
    requestGeminiJson apiKeyPresent (AdapterOutcome.httpNotOk status detail) =
      Except.ok none ∧
    requestGeminiJson apiKeyPresent AdapterOutcome.emptyText = Except.ok none ∧
    requestGeminiJson apiKeyPresent AdapterOutcome.nonJson = Except.ok none ∧
    requestGeminiJson apiKeyPresent AdapterOutcome.wrappedBad = Except.ok none ∧
    requestGeminiJson false outcome = Except.ok none := by
  cases apiKeyPresent <;> exact ⟨rfl, rfl, rfl, rfl, rfl⟩

theorem fallback_languageCode (input : PrescriptionSimplifyInput) :
    (fallbackPrescriptionSummary input).languageCode = input.language := rfl

theorem fallback_languageLabel (input : PrescriptionSimplifyInput) :
    (fallbackPrescriptionSummary input).languageLabel =
      prescriptionLanguageLabels input.language := rfl

theorem translate_language_canonical (env : SimplifierEnv)
    (summary t : SimplifiedPrescriptionSummary) (language : PrescriptionLanguageCode)
    (h : translatePrescriptionSummaryToLanguage env summary language =
      Except.ok (some t)) :
    t.languageCode = language ∧
    t.languageLabel = prescriptionLanguageLabels language := by
  rw [translatePrescriptionSummaryToLanguage] at h
  split at h
  · exact absurd h (by simp)
  · exact absurd h (by simp)
  · split at h
    · exact absurd h (by simp)
    · simp only [Except.ok.injEq, Option.some.injEq] at h
      subst h
      exact ⟨rfl, rfl⟩

/-- C9: every summary the simplifier returns — model path, translation-retry
path or deterministic fallback — carries the requested language code and the
canonical display label for it. -/
theorem simplifier_language_canonical (env : SimplifierEnv)
    (input : PrescriptionSimplifyInput) (s : SimplifiedPrescriptionSummary)
    (h : (runPrescriptionSimplifier env input).1 = Except.ok s) :
    s.languageCode = input.language ∧
    s.languageLabel = prescriptionLanguageLabels input.language := by
  rw [runPrescriptionSimplifier] at h
  dsimp only at h
  split at h
  · simp only [Except.ok.injEq] at h
    subst h
    exact ⟨fallback_languageCode input, fallback_languageLabel input⟩
  · split at h
    · exact absurd h (by simp)
    · simp only [Except.ok.injEq] at h
      subst h
      exact ⟨fallback_languageCode input, fallback_languageLabel input⟩
    · split at h
      · simp only [Except.ok.injEq] at h
        subst h
        exact ⟨fallback_languageCode input, fallback_languageLabel input⟩
      · split at h
        · simp only [Except.ok.injEq] at h
          subst h
          exact ⟨rfl, rfl⟩
        · split at h
          · exact absurd h (by simp)
          · next htr =>
            split at h
            · simp only [Except.ok.injEq] at h
              subst h
              exact translate_language_canonical _ _ _ _ htr
            · simp only [Except.ok.injEq] at h
              subst h
              exact ⟨fallback_languageCode input, fallback_languageLabel input⟩
          · simp only [Except.ok.injEq] at h
            subst h
            exact ⟨fallback_languageCode input, fallback_languageLabel input⟩

/-- Witness for C9: the no-key environment returns the fallback, which carries
the requested language (tested with Hindi). -/
theorem simplifier_language_canonical_witness :
    (fallbackPrescriptionSummary
      ⟨("Paracetamol 500mg twice daily").toList, PrescriptionLanguageCode.hi⟩).languageCode =
        PrescriptionLanguageCode.hi ∧
    (fallbackPrescriptionSummary
      ⟨("Paracetamol 500mg twice daily").toList, PrescriptionLanguageCode.hi⟩).languageLabel =
        prescriptionLanguageLabels PrescriptionLanguageCode.hi :=
  simplifier_language_canonical
    ⟨false, fun _ => AdapterOutcome.nonJson, fun _ _ => AdapterOutcome.nonJson⟩
    ⟨("Paracetamol 500mg twice daily").toList, PrescriptionLanguageCode.hi⟩
    (fallbackPrescriptionSummary
      ⟨("Paracetamol 500mg twice daily").toList, PrescriptionLanguageCode.hi⟩)
    rfl

/-- Schema-valid Hindi candidate summary whose narrative is Devanagari except
for the dose token "ml": 75 Devanagari characters against 2 Latin letters. -/
def goodHindiSummary : SimplifiedPrescriptionSummary :=
  { languageCode := PrescriptionLanguageCode.hi
  , languageLabel := ("Hindi").toList
  , doctorExplanation := ("दवा समय पर लें। दिन में दो बार खाने के बाद लें।").toList
  , medicines :=
      [ { medicineName := ("Dolo").toList
        , dosage := ("650 mg").toList
        , duration := ("5 दिन").toList
        , timingSlots := [PrescriptionTimingSlot.MORNING_AFTER_FOOD]
        , instructions := [("खाने के बाद 10 ml लें।").toList] } ]
  , warnings := []
  , hydrationTips := []
  , generalAdvice := [("लक्षण बढ़ें तो डॉक्टर से मिलें।").toList] }

/-- Hindi candidate containing no Devanagari at all (narrative is English). -/
def englishOnlyHindiSummary : SimplifiedPrescriptionSummary :=
  { languageCode := PrescriptionLanguageCode.hi
  , languageLabel := ("Hindi").toList
  , doctorExplanation := ("Take the medicine on time after food.").toList
  , medicines :=
      [ { medicineName := ("Dolo").toList
        , dosage := ("650 mg").toList
        , duration := ("5 days").toList
        , timingSlots := [PrescriptionTimingSlot.MORNING_AFTER_FOOD]
        , instructions := [("after food").toList] } ]
  , warnings := []
  , hydrationTips := []
  , generalAdvice := [("see a doctor if it gets worse").toList] }

/-- C8 (code bug): the source's script regex has no global flag, so
`scriptCount` is `1` whenever any script character occurs (never the true
count).  A schema-valid Hindi summary whose narrative has 75 Devanagari
characters and only 2 Latin letters — aligned under the spec's
count-and-compare rule — is rejected by the code, because `2 > 1 * 1.2`.
The zero-Devanagari direction of the claim does hold: an all-English Hindi
candidate fails alignment in both. -/
theorem alignment_scriptcount_missing_global_flag :
    summaryBoundsOk goodHindiSummary = true ∧
    (prescriptionNarrativeText goodHindiSummary).countP isDevanagariCh = 75 ∧
    (prescriptionNarrativeText goodHindiSummary).countP isAsciiLetter = 2 ∧
    specLanguageAligned goodHindiSummary PrescriptionLanguageCode.hi = true ∧
    isPrescriptionLanguageAligned goodHindiSummary PrescriptionLanguageCode.hi = false ∧
    summaryBoundsOk englishOnlyHindiSummary = true ∧
    isPrescriptionLanguageAligned englishOnlyHindiSummary PrescriptionLanguageCode.hi =
      false ∧
    specLanguageAligned englishOnlyHindiSummary PrescriptionLanguageCode.hi = false :=
  ⟨by decide, by decide, by decide, by decide, by decide, by decide, by decide, by decide⟩

/-- Valid simplify request whose "if …" condition fragment is 253 characters
long (the text has no period after "if"). -/
def longConditionInput : PrescriptionSimplifyInput :=
  { text := ("Paracetamol 5mg if ").toList ++ List.replicate 250 'p'
  , language := PrescriptionLanguageCode.en }

/-- C4 counterexample: on a valid request the deterministic fallback copies
the unbounded "if …" fragment into an instruction of 253 characters, breaking
the 220-character bound of the strict contract (and the claim that all
rendered phrases come from the fixed phrase table). -/
theorem fallback_violates_strict_contract :
    validSimplifyRequest longConditionInput = true ∧
    summaryBoundsOk (fallbackPrescriptionSummary longConditionInput) = false :=
  ⟨by decide, by decide⟩

theorem dedupFirstAux_mem {α} [DecidableEq α] (l : List α) :
    ∀ (seen : List α) (x : α), x ∈ dedupFirstAux seen l → x ∈ l := by
  induction l with
  | nil => intro seen x h; simp [dedupFirstAux] at h
  | cons a rest ih =>
    intro seen x h
    rw [dedupFirstAux] at h
    split at h
    · exact List.mem_cons_of_mem a (ih seen x h)
    · rcases List.mem_cons.mp h with h1 | h1
      · exact h1 ▸ List.mem_cons_self a rest
      · exact List.mem_cons_of_mem a (ih (a :: seen) x h1)

theorem dedupFirstAux_length_le {α} [DecidableEq α] (l : List α) :
    ∀ seen : List α, (dedupFirstAux seen l).length ≤ l.length := by
  induction l with
  | nil => intro seen; simp [dedupFirstAux]
  | cons a rest ih =>
    intro seen
    rw [dedupFirstAux]
    split
    · exact Nat.le_succ_of_le (ih seen)
    · simpa using Nat.succ_le_succ (ih (a :: seen))

theorem dedupFirst_mem {α} [DecidableEq α] {l : List α} {x : α}
    (h : x ∈ dedupFirst l) : x ∈ l :=
  dedupFirstAux_mem l [] x h

theorem dedupFirst_length_le {α} [DecidableEq α] (l : List α) :
    (dedupFirst l).length ≤ l.length :=
  dedupFirstAux_length_le l []

theorem dedupFirst_length_pos {α} [DecidableEq α] (l : List α) (h : l ≠ []) :
    1 ≤ (dedupFirst l).length := by
  match l, h with
  | a :: rest, _ =>
    rw [dedupFirst, dedupFirstAux]
    split
    · next hmem => simp at hmem
    · simp

theorem length_ite_single {α} (c : Prop) [Decidable c] (x : α) :
    (if c then [x] else []).length ≤ 1 := by
  split <;> simp

theorem length_ite_le {α} (c : Prop) [Decidable c] (l1 l2 : List α) (h1 : l1.length ≤ n)
    (h2 : l2.length ≤ n) : (if c then l1 else l2).length ≤ n := by
  split <;> assumption

theorem length_opt_single {α β} (o : Option β) (f : β → List α) :
    (match o with
     | some m => [f m]
     | none => []).length ≤ 1 := by
  cases o <;> simp

theorem slots_final_bounds (slots : List PrescriptionTimingSlot) (h : slots.length ≤ 4) :
    1 ≤ (if slots.isEmpty = true then [PrescriptionTimingSlot.UNSPECIFIED]
          else dedupFirst slots).length ∧
    (if slots.isEmpty = true then [PrescriptionTimingSlot.UNSPECIFIED]
      else dedupFirst slots).length ≤ 8 := by
  split
  · simp
  · next hne =>
    have hnil : slots ≠ [] := by
      intro e
      rw [e] at hne
      simp at hne
    exact ⟨dedupFirst_length_pos _ hnil,
      le_trans (dedupFirst_length_le _) (by omega)⟩

/-- The timing-slot extractor always yields between 1 and 8 slots. -/
theorem extractTimingSlots_bounds (t : List Char) :
    1 ≤ (extractTimingSlotsFromText t).length ∧
      (extractTimingSlotsFromText t).length ≤ 8 := by
  rw [extractTimingSlotsFromText]
  dsimp only
  split
  · simp
  · set parts1 :=
      (if hasBoundedPhrase [("morning").toList] (lowerStr t) then [DayPart.MORNING] else []) ++
      (if hasBoundedPhrase [("afternoon").toList, ("noon").toList] (lowerStr t) then
        [DayPart.AFTERNOON] else []) ++
      (if hasBoundedPhrase [("night").toList, ("evening").toList] (lowerStr t) then
        [DayPart.NIGHT] else []) with hparts1
    have hp1 : parts1.length ≤ 3 := by
      rw [hparts1, List.length_append, List.length_append]
      have a1 := length_ite_single
        (hasBoundedPhrase [("morning").toList] (lowerStr t) = true) DayPart.MORNING
      have a2 := length_ite_single
        (hasBoundedPhrase [("afternoon").toList, ("noon").toList] (lowerStr t) = true)
        DayPart.AFTERNOON
      have a3 := length_ite_single
        (hasBoundedPhrase [("night").toList, ("evening").toList] (lowerStr t) = true)
        DayPart.NIGHT
      omega
    set parts2 := if parts1.isEmpty = true then _ else parts1 with hparts2
    have hp2 : parts2.length ≤ 3 := by
      rw [hparts2]
      apply length_ite_le
      · apply length_ite_le
        · simp
        · apply length_ite_le
          · simp
          · apply length_ite_le <;> simp
      · exact hp1
    set bed := if hasBoundedPhrase [("before bed").toList, ("bedtime").toList] (lowerStr t)
      then [PrescriptionTimingSlot.BEDTIME] else [] with hbed
    have hb : bed.length ≤ 1 := length_ite_single _ _
    have hslots : ∀ f : DayPart → PrescriptionTimingSlot,
        ((parts2.map f) ++ bed).length ≤ 4 := by
      intro f
      rw [List.length_append, List.length_map]
      omega
    exact slots_final_bounds _ (hslots _)

theorem dedup_filter_map_length_le (l : List (List Char)) :
    (dedupFirst ((l.map trimWs).filter (fun v => !v.isEmpty))).length ≤ l.length :=
  le_trans (dedupFirst_length_le _)
    (le_trans (List.length_filter_le _ _) (le_of_eq (List.length_map _ _)))

theorem dedup_filter_mem_ne_nil (l : List (List Char)) (x : List Char)
    (h : x ∈ dedupFirst ((l.map trimWs).filter (fun v => !v.isEmpty))) : x ≠ [] := by
  have hf := dedupFirst_mem h
  have hp := List.of_mem_filter hf
  simpa using hp

theorem useDirective_length (lang : PrescriptionLanguageCode) (n d : List Char) :
    5 ≤ ((prescriptionFallbackByLanguage lang).useDirective n d).length := by
  cases lang
  · have hS : 5 ≤ ((" as directed by your doctor.").toList).length := by decide
    simp only [prescriptionFallbackByLanguage, List.length_append, List.length_cons]
    omega
  · have hS : 5 ≤ ((" डॉक्टर के निर्देशानुसार लें।").toList).length := by decide
    simp only [prescriptionFallbackByLanguage, List.length_append, List.length_cons]
    omega
  · have hS : 5 ≤ ((" மருத்துவர் கூறியபடி எடுத்துக்கொள்ளவும்.").toList).length := by decide
    simp only [prescriptionFallbackByLanguage, List.length_append, List.length_cons]
    omega
  · have hS : 5 ≤ ((" ডাক্তারের নির্দেশ অনুযায়ী সেবন করুন।").toList).length := by decide
    simp only [prescriptionFallbackByLanguage, List.length_append, List.length_cons]
    omega

theorem joinSpace_head_length (x : List Char) (rest : List (List Char)) :
    x.length ≤ (joinSpace (x :: rest)).length := by
  cases rest with
  | nil => simp [joinSpace]
  | cons y r =>
    rw [joinSpace]
    simp only [List.length_append, List.length_cons]
    omega

/-- C4 amended: on every request the deterministic fallback carries the
requested language code with its canonical label, exactly one medicine with
1-8 timing slots and at most 8 non-empty instructions, a doctor explanation of
at least 5 characters, the fixed general advice, and at most one warning and
one hydration tip, the warning and hydration phrases being drawn from the
fixed per-language phrase table.  (The strict contract's upper character
bounds on input-derived strings do not hold in general; see the
counterexample.) -/
theorem fallback_structural_contract (input : PrescriptionSimplifyInput) :
    (fallbackPrescriptionSummary input).languageCode = input.language ∧
    (fallbackPrescriptionSummary input).languageLabel =
      prescriptionLanguageLabels input.language ∧
    (fallbackPrescriptionSummary input).medicines.length = 1 ∧
    (∀ m ∈ (fallbackPrescriptionSummary input).medicines,
      1 ≤ m.timingSlots.length ∧ m.timingSlots.length ≤ 8 ∧
      m.instructions.length ≤ 8 ∧ ∀ i ∈ m.instructions, i ≠ []) ∧
    5 ≤ (fallbackPrescriptionSummary input).doctorExplanation.length ∧
    (fallbackPrescriptionSummary input).generalAdvice =
      [(prescriptionFallbackByLanguage input.language).generalAdvice] ∧
    (fallbackPrescriptionSummary input).warnings.length ≤ 1 ∧
    (fallbackPrescriptionSummary input).hydrationTips.length ≤ 1 ∧
    ((fallbackPrescriptionSummary input).warnings = [] ∨
      (fallbackPrescriptionSummary input).warnings =
        [(prescriptionFallbackByLanguage input.language).warningEmptyStomach] ∨
      (fallbackPrescriptionSummary input).warnings =
        [(prescriptionFallbackByLanguage input.language).warningGeneric]) ∧
    ((fallbackPrescriptionSummary input).hydrationTips = [] ∨
      (fallbackPrescriptionSummary input).hydrationTips =
        [(prescriptionFallbackByLanguage input.language).hydrationTip]) := by
  unfold fallbackPrescriptionSummary
  dsimp only
  refine ⟨rfl, rfl, rfl, ?_, ?_, rfl, ?_, ?_, ?_, ?_⟩
  · intro m hm
    rw [List.mem_singleton] at hm
    subst hm
    dsimp only
    refine ⟨(extractTimingSlots_bounds _).1, (extractTimingSlots_bounds _).2, ?_, ?_⟩
    · apply le_trans (dedup_filter_map_length_le _)
      rcases hc1 : freqFirstMatch (sanitizeTriageText input.text) with _ | m1 <;>
        rcases hc2 : qtyFirstMatch (sanitizeTriageText input.text) with _ | m2 <;>
        rcases hc3 : condFirstMatch (sanitizeTriageText input.text) with _ | m3 <;>
        rcases hc4 : explicitInstrFirstMatch (sanitizeTriageText input.text) with _ | m4 <;>
        rcases hc5 : tabletCountFirstMatch (sanitizeTriageText input.text) with _ | m5 <;>
        simp only [hc1, hc2, hc3, hc4, hc5] <;> split_ifs <;> simp
    · intro i hi
      exact dedup_filter_mem_ne_nil _ i hi
  · have hu := useDirective_length input.language
      (match medFirstMatch (sanitizeTriageText input.text) with
       | some m =>
         if (trimWs (stripLeadMedKeyword m.1)).isEmpty = true then
           (prescriptionFallbackByLanguage input.language).defaultMedicine
         else trimWs (stripLeadMedKeyword m.1)
       | none => (prescriptionFallbackByLanguage input.language).defaultMedicine)
      (match medFirstMatch (sanitizeTriageText input.text) with
       | some m =>
         if (trimWs (collapseWs m.2)).isEmpty = true then
           (prescriptionFallbackByLanguage input.language).defaultDosage
         else trimWs (collapseWs m.2)
       | none => (prescriptionFallbackByLanguage input.language).defaultDosage)
    set u := (prescriptionFallbackByLanguage input.language).useDirective _ _ with hudef
    rw [List.filter_cons_of_pos (by
      have hne : u ≠ [] := by
        intro he
        rw [hudef] at hu
        rw [← hudef, he] at hu
        simp at hu
      simp [hne])]
    exact le_trans hu (joinSpace_head_length _ _)
  · split
    · simp
    · split <;> simp
  · split <;> simp
  · split
    · exact Or.inr (Or.inl rfl)
    · split
      · exact Or.inr (Or.inr rfl)
      · exact Or.inl rfl
  · split
    · exact Or.inr rfl
    · exact Or.inl rfl

/-- C3 counterexample: with the model capability configured, a network-level
`fetch` rejection propagates out of `runPrescriptionSimplifier`, and the route
handler surfaces it to the user as a 503 error response — the fallback is not
used. -/
theorem simplifier_network_error_surfaces_error :
    (runPrescriptionSimplifier
      ⟨true, fun _ => AdapterOutcome.fetchThrow (("TypeError: fetch failed").toList),
        fun _ _ => AdapterOutcome.nonJson⟩
      ⟨("Paracetamol 500mg twice daily").toList, PrescriptionLanguageCode.en⟩).1 =
      Except.error (("TypeError: fetch failed").toList) ∧
    prescriptionSimplifyRoute
      ⟨true, fun _ => AdapterOutcome.fetchThrow (("TypeError: fetch failed").toList),
        fun _ _ => AdapterOutcome.nonJson⟩
      ⟨("Paracetamol 500mg twice daily").toList, PrescriptionLanguageCode.en⟩ =
      SimplifyRouteResult.errorJson (("TypeError: fetch failed").toList) 503 :=
  ⟨rfl, rfl⟩

theorem requestGeminiJson_ok_of_returnsNormally (k : Bool) (o : AdapterOutcome)
    (h : o.returnsNormally = true) : ∃ r, requestGeminiJson k o = Except.ok r := by
  cases o with
  | fetchThrow m => simp [AdapterOutcome.returnsNormally] at h
  | bodyJsonThrow m => simp [AdapterOutcome.returnsNormally] at h
  | httpNotOk st d => cases k <;> exact ⟨none, rfl⟩
  | emptyText => cases k <;> exact ⟨none, rfl⟩
  | parsedJson j => cases k with
    | false => exact ⟨none, rfl⟩
    | true => exact ⟨some j, rfl⟩
  | wrappedJson j => cases k with
    | false => exact ⟨none, rfl⟩
    | true => exact ⟨some j, rfl⟩
  | nonJson => cases k <;> exact ⟨none, rfl⟩
  | wrappedBad => cases k <;> exact ⟨none, rfl⟩

theorem translate_ok_of_returnsNormally (env : SimplifierEnv)
    (summary : SimplifiedPrescriptionSummary) (language : PrescriptionLanguageCode)
    (h : (env.translateCall summary language).returnsNormally = true) :
    ∃ r, translatePrescriptionSummaryToLanguage env summary language = Except.ok r := by
  rw [translatePrescriptionSummaryToLanguage]
  obtain ⟨r, hr⟩ := requestGeminiJson_ok_of_returnsNormally env.apiKeyPresent _ h
  rw [hr]
  rcases r with _ | j
  · exact ⟨none, rfl⟩
  · dsimp only
    rcases hp : parsePrescriptionSummary j with _ | t
    · exact ⟨none, rfl⟩
    · exact ⟨some (coercePrescriptionLanguage t language), rfl⟩

theorem run_simplifier_eq_of_nokey (env : SimplifierEnv)
    (input : PrescriptionSimplifyInput) (hkey : env.apiKeyPresent = false) :
    runPrescriptionSimplifier env input =
      (Except.ok (fallbackPrescriptionSummary input), 0) := by
  rw [runPrescriptionSimplifier]
  rw [hkey]
  rfl

theorem run_simplifier_eq_of_null (env : SimplifierEnv)
    (input : PrescriptionSimplifyInput) (hkey : env.apiKeyPresent = true)
    (hr : requestGeminiJson env.apiKeyPresent (env.generateCall input) = Except.ok none) :
    runPrescriptionSimplifier env input =
      (Except.ok (fallbackPrescriptionSummary input), 1) := by
  rw [runPrescriptionSimplifier]
  rw [hkey] at hr ⊢
  rw [hr]
  rfl

theorem run_simplifier_eq_of_parse_fail (env : SimplifierEnv)
    (input : PrescriptionSimplifyInput) (j : Json) (hkey : env.apiKeyPresent = true)
    (hr : requestGeminiJson env.apiKeyPresent (env.generateCall input) =
      Except.ok (some j))
    (hp : parsePrescriptionSummary j = none) :
    runPrescriptionSimplifier env input =
      (Except.ok (fallbackPrescriptionSummary input), 1) := by
  rw [runPrescriptionSimplifier]
  rw [hkey] at hr ⊢
  rw [hr]
  dsimp only
  rw [hp]
  rfl

theorem run_simplifier_eq_of_aligned (env : SimplifierEnv)
    (input : PrescriptionSimplifyInput) (j : Json)
    (p : SimplifiedPrescriptionSummary) (hkey : env.apiKeyPresent = true)
    (hr : requestGeminiJson env.apiKeyPresent (env.generateCall input) =
      Except.ok (some j))
    (hp : parsePrescriptionSummary j = some p)
    (ha : isPrescriptionLanguageAligned (coercePrescriptionLanguage p input.language)
      input.language = true) :
    runPrescriptionSimplifier env input =
      (Except.ok (coercePrescriptionLanguage p input.language), 1) := by
  rw [runPrescriptionSimplifier]
  rw [hkey] at hr ⊢
  rw [hr]
  dsimp only
  rw [hp]
  dsimp only
  rw [if_pos ha]
  rfl

theorem run_simplifier_eq_of_misaligned (env : SimplifierEnv)
    (input : PrescriptionSimplifyInput) (j : Json)
    (p : SimplifiedPrescriptionSummary)
    (rt : Option SimplifiedPrescriptionSummary) (hkey : env.apiKeyPresent = true)
    (hr : requestGeminiJson env.apiKeyPresent (env.generateCall input) =
      Except.ok (some j))
    (hp : parsePrescriptionSummary j = some p)
    (ha : isPrescriptionLanguageAligned (coercePrescriptionLanguage p input.language)
      input.language = false)
    (ht : translatePrescriptionSummaryToLanguage env
      (coercePrescriptionLanguage p input.language) input.language = Except.ok rt) :
    runPrescriptionSimplifier env input =
      (match rt with
       | some t =>
         if isPrescriptionLanguageAligned t input.language then (Except.ok t, 2)
         else (Except.ok (fallbackPrescriptionSummary input), 2)
       | none => (Except.ok (fallbackPrescriptionSummary input), 2)) := by
  have hneg : ¬ (isPrescriptionLanguageAligned
      (coercePrescriptionLanguage p input.language) input.language = true) := by
    rw [ha]
    simp
  rcases rt with _ | t
  · rw [runPrescriptionSimplifier]
    rw [hkey] at hr ⊢
    rw [hr]
    dsimp only
    rw [hp]
    dsimp only
    rw [if_neg hneg, ht]
    rfl
  · rw [runPrescriptionSimplifier]
    rw [hkey] at hr ⊢
    rw [hr]
    dsimp only
    rw [hp]
    dsimp only
    rw [if_neg hneg, ht]
    rfl

theorem parse_summaryBoundsOk (j : Json) (s : SimplifiedPrescriptionSummary)
    (h : parsePrescriptionSummary j = some s) : summaryBoundsOk s = true := by
  cases j with
  | obj fields =>
    rw [parsePrescriptionSummary] at h
    iterate 14 all_goals (try split at h)
    all_goals
      first
      | exact Option.noConfusion h
      | (dsimp only at h
         split at h
         · simp only [Option.some.injEq] at h
           subst h
           assumption
         · exact Option.noConfusion h)
  | null => simp [parsePrescriptionSummary] at h
  | bool b => simp [parsePrescriptionSummary] at h
  | num n => simp [parsePrescriptionSummary] at h
  | str t => simp [parsePrescriptionSummary] at h
  | arr xs => simp [parsePrescriptionSummary] at h

theorem coerce_summaryBoundsOk (p : SimplifiedPrescriptionSummary)
    (lang : PrescriptionLanguageCode) (h : summaryBoundsOk p = true) :
    summaryBoundsOk (coercePrescriptionLanguage p lang) = true := by
  have hl1 : 2 ≤ (prescriptionLanguageLabels lang).length := by
    cases lang <;> decide
  have hl2 : (prescriptionLanguageLabels lang).length ≤ 60 := by
    cases lang <;> decide
  rw [summaryBoundsOk] at h
  rw [summaryBoundsOk, coercePrescriptionLanguage]
  dsimp only
  simp only [Bool.and_eq_true, decide_eq_true_eq] at h ⊢
  obtain ⟨⟨⟨⟨⟨⟨⟨⟨⟨⟨⟨⟨_, _⟩, h3⟩, h4⟩, h5⟩, h6⟩, h7⟩, h8⟩, h9⟩, h10⟩, h11⟩, h12⟩, h13⟩ := h
  exact ⟨⟨⟨⟨⟨⟨⟨⟨⟨⟨⟨⟨hl1, hl2⟩, h3⟩, h4⟩, h5⟩, h6⟩, h7⟩, h8⟩, h9⟩, h10⟩, h11⟩, h12⟩, h13⟩

theorem translate_some_inv (env : SimplifierEnv)
    (summary t : SimplifiedPrescriptionSummary) (language : PrescriptionLanguageCode)
    (h : translatePrescriptionSummaryToLanguage env summary language =
      Except.ok (some t)) :
    ∃ j q, parsePrescriptionSummary j = some q ∧
      t = coercePrescriptionLanguage q language := by
  rw [translatePrescriptionSummaryToLanguage] at h
  split at h
  · exact absurd h (by simp)
  · exact absurd h (by simp)
  · next j hj =>
    split at h
    · exact absurd h (by simp)
    · next q hq =>
      simp only [Except.ok.injEq, Option.some.injEq] at h
      exact ⟨_, q, hq, h.symm⟩

theorem translate_boundsOk (env : SimplifierEnv)
    (summary t : SimplifiedPrescriptionSummary) (language : PrescriptionLanguageCode)
    (h : translatePrescriptionSummaryToLanguage env summary language =
      Except.ok (some t)) :
    summaryBoundsOk t = true := by
  obtain ⟨j, q, hq, rfl⟩ := translate_some_inv env summary t language h
  exact coerce_summaryBoundsOk q language (parse_summaryBoundsOk j q hq)

/-- C3 amended: provided each adapter call returns rather than throwing (every
soft model failure is reported as `null` or invalid output), the simplifier
never surfaces an error: a null or schema-invalid generation yields the
deterministic fallback with one call; a validated but misaligned summary
triggers exactly one translation-only retry, whose output is re-validated,
language-coerced and re-checked for alignment, the fallback being returned
when the retry fails; at most two calls are ever made.  (A throwing adapter
call — a network error or an undecodable HTTP body — escapes instead; see the
counterexample.) -/
theorem simplifier_recovers_from_soft_model_failures (env : SimplifierEnv)
    (input : PrescriptionSimplifyInput)
    (hgen : (env.generateCall input).returnsNormally = true)
    (htr : ∀ s lang, (env.translateCall s lang).returnsNormally = true) :
    (∃ s, (runPrescriptionSimplifier env input).1 = Except.ok s ∧
      (s = fallbackPrescriptionSummary input ∨
        (isPrescriptionLanguageAligned s input.language = true ∧
          summaryBoundsOk s = true ∧ s.languageCode = input.language))) ∧
    (runPrescriptionSimplifier env input).2 ≤ 2 ∧
    (requestGeminiJson env.apiKeyPresent (env.generateCall input) = Except.ok none →
      (runPrescriptionSimplifier env input).1 =
        Except.ok (fallbackPrescriptionSummary input)) ∧
    (∀ j, requestGeminiJson env.apiKeyPresent (env.generateCall input) =
        Except.ok (some j) →
      parsePrescriptionSummary j = none →
      (runPrescriptionSimplifier env input).1 =
        Except.ok (fallbackPrescriptionSummary input)) ∧
    (∀ j p, requestGeminiJson env.apiKeyPresent (env.generateCall input) =
        Except.ok (some j) →
      parsePrescriptionSummary j = some p →
      isPrescriptionLanguageAligned (coercePrescriptionLanguage p input.language)
          input.language = false →
      (runPrescriptionSimplifier env input).2 = 2 ∧
      (∀ t, translatePrescriptionSummaryToLanguage env
          (coercePrescriptionLanguage p input.language) input.language =
            Except.ok (some t) →
        isPrescriptionLanguageAligned t input.language = true →
        (runPrescriptionSimplifier env input).1 = Except.ok t) ∧
      (∀ t, translatePrescriptionSummaryToLanguage env
          (coercePrescriptionLanguage p input.language) input.language =
            Except.ok (some t) →
        isPrescriptionLanguageAligned t input.language = false →
        (runPrescriptionSimplifier env input).1 =
          Except.ok (fallbackPrescriptionSummary input)) ∧
      (translatePrescriptionSummaryToLanguage env
          (coercePrescriptionLanguage p input.language) input.language =
            Except.ok none →
        (runPrescriptionSimplifier env input).1 =
          Except.ok (fallbackPrescriptionSummary input))) := by
  by_cases hkey : env.apiKeyPresent = true
  case neg =>
    have hkf : env.apiKeyPresent = false := by
      cases hb : env.apiKeyPresent
      · rfl
      · exact absurd hb hkey
    have hrun := run_simplifier_eq_of_nokey env input hkf
    have hnull : requestGeminiJson env.apiKeyPresent (env.generateCall input) =
        Except.ok none := by
      rw [hkf]
      rfl
    refine ⟨⟨fallbackPrescriptionSummary input, by rw [hrun], Or.inl rfl⟩,
      by rw [hrun]; exact Nat.zero_le 2, fun _ => by rw [hrun], ?_, ?_⟩
    · intro j hj hp
      rw [hnull] at hj
      exact absurd hj (by simp)
    · intro j p hj hp ha
      rw [hnull] at hj
      exact absurd hj (by simp)
  case pos =>
    obtain ⟨r, hr⟩ := requestGeminiJson_ok_of_returnsNormally env.apiKeyPresent
      (env.generateCall input) hgen
    rcases r with _ | j
    · have hrun := run_simplifier_eq_of_null env input hkey hr
      refine ⟨⟨fallbackPrescriptionSummary input, by rw [hrun], Or.inl rfl⟩,
        by rw [hrun]; exact Nat.le_succ 1, fun _ => by rw [hrun], ?_, ?_⟩
      · intro j hj hp
        rw [hr] at hj
        exact absurd hj (by simp)
      · intro j p hj hp ha
        rw [hr] at hj
        exact absurd hj (by simp)
    · rcases hp : parsePrescriptionSummary j with _ | p
      · have hrun := run_simplifier_eq_of_parse_fail env input j hkey hr hp
        refine ⟨⟨fallbackPrescriptionSummary input, by rw [hrun], Or.inl rfl⟩,
          by rw [hrun]; exact Nat.le_succ 1, fun _ => by rw [hrun],
          fun _ _ _ => by rw [hrun], ?_⟩
        intro j2 p2 hj2 hp2 ha2
        rw [hr] at hj2
        simp only [Except.ok.injEq, Option.some.injEq] at hj2
        subst hj2
        rw [hp] at hp2
        exact absurd hp2 (by simp)
      · by_cases hal : isPrescriptionLanguageAligned
            (coercePrescriptionLanguage p input.language) input.language = true
        · have hrun := run_simplifier_eq_of_aligned env input j p hkey hr hp hal
          have hbounds : summaryBoundsOk (coercePrescriptionLanguage p input.language) =
              true :=
            coerce_summaryBoundsOk p input.language (parse_summaryBoundsOk j p hp)
          refine ⟨⟨coercePrescriptionLanguage p input.language, by rw [hrun],
            Or.inr ⟨hal, hbounds, rfl⟩⟩, by rw [hrun]; exact Nat.le_succ 1, ?_, ?_, ?_⟩
          · intro h0
            rw [hr] at h0
            exact absurd h0 (by simp)
          · intro j2 hj2 hp2
            rw [hr] at hj2
            simp only [Except.ok.injEq, Option.some.injEq] at hj2
            subst hj2
            rw [hp] at hp2
            exact absurd hp2 (by simp)
          · intro j2 p2 hj2 hp2 ha2
            rw [hr] at hj2
            simp only [Except.ok.injEq, Option.some.injEq] at hj2
            subst hj2
            rw [hp] at hp2
            simp only [Option.some.injEq] at hp2
            subst hp2
            rw [hal] at ha2
            exact absurd ha2 (by simp)
        · have hfa : isPrescriptionLanguageAligned
              (coercePrescriptionLanguage p input.language) input.language = false := by
            cases hb : isPrescriptionLanguageAligned
                (coercePrescriptionLanguage p input.language) input.language
            · rfl
            · exact absurd hb hal
          obtain ⟨rt, hrt⟩ := translate_ok_of_returnsNormally env
            (coercePrescriptionLanguage p input.language) input.language (htr _ _)
          have hrun := run_simplifier_eq_of_misaligned env input j p rt hkey hr hp hfa hrt
          rcases rt with _ | t
          · refine ⟨⟨fallbackPrescriptionSummary input, by rw [hrun], Or.inl rfl⟩,
              by rw [hrun], ?_, ?_, ?_⟩
            · intro h0
              rw [hr] at h0
              exact absurd h0 (by simp)
            · intro j2 hj2 hp2
              rw [hr] at hj2
              simp only [Except.ok.injEq, Option.some.injEq] at hj2
              subst hj2
              rw [hp] at hp2
              exact absurd hp2 (by simp)
            · intro j2 p2 hj2 hp2 ha2
              rw [hr] at hj2
              simp only [Except.ok.injEq, Option.some.injEq] at hj2
              subst hj2
              rw [hp] at hp2
              simp only [Option.some.injEq] at hp2
              subst hp2
              refine ⟨by rw [hrun], ?_, ?_, fun _ => by rw [hrun]⟩
              · intro t2 ht2 hta2
                rw [hrt] at ht2
                exact absurd ht2 (by simp)
              · intro t2 ht2 hta2
                rw [hrt] at ht2
                exact absurd ht2 (by simp)
          · by_cases hta : isPrescriptionLanguageAligned t input.language = true
            · have hrun2 : runPrescriptionSimplifier env input = (Except.ok t, 2) := by
                rw [hrun]
                dsimp only
                rw [if_pos hta]
              have hbt : summaryBoundsOk t = true := translate_boundsOk env _ t _ hrt
              have hcode : t.languageCode = input.language :=
                (translate_language_canonical env _ t input.language hrt).1
              refine ⟨⟨t, by rw [hrun2], Or.inr ⟨hta, hbt, hcode⟩⟩,
                by rw [hrun2], ?_, ?_, ?_⟩
              · intro h0
                rw [hr] at h0
                exact absurd h0 (by simp)
              · intro j2 hj2 hp2
                rw [hr] at hj2
                simp only [Except.ok.injEq, Option.some.injEq] at hj2
                subst hj2
                rw [hp] at hp2
                exact absurd hp2 (by simp)
              · intro j2 p2 hj2 hp2 ha2
                rw [hr] at hj2
                simp only [Except.ok.injEq, Option.some.injEq] at hj2
                subst hj2
                rw [hp] at hp2
                simp only [Option.some.injEq] at hp2
                subst hp2
                refine ⟨by rw [hrun2], ?_, ?_, ?_⟩
                · intro t2 ht2 hta2
                  rw [hrt] at ht2
                  simp only [Except.ok.injEq, Option.some.injEq] at ht2
                  subst ht2
                  rw [hrun2]
                · intro t2 ht2 hta2
                  rw [hrt] at ht2
                  simp only [Except.ok.injEq, Option.some.injEq] at ht2
                  subst ht2
                  rw [hta] at hta2
                  exact absurd hta2 (by simp)
                · intro h0
                  rw [hrt] at h0
                  exact absurd h0 (by simp)
            · have hft : isPrescriptionLanguageAligned t input.language = false := by
                cases hb : isPrescriptionLanguageAligned t input.language
                · rfl
                · exact absurd hb hta
              have hrun2 : runPrescriptionSimplifier env input =
                  (Except.ok (fallbackPrescriptionSummary input), 2) := by
                rw [hrun]
                dsimp only
                rw [if_neg (by rw [hft]; simp)]
              refine ⟨⟨fallbackPrescriptionSummary input, by rw [hrun2], Or.inl rfl⟩,
                by rw [hrun2], ?_, ?_, ?_⟩
              · intro h0
                rw [hr] at h0
                exact absurd h0 (by simp)
              · intro j2 hj2 hp2
                rw [hr] at hj2
                simp only [Except.ok.injEq, Option.some.injEq] at hj2
                subst hj2
                rw [hp] at hp2
                exact absurd hp2 (by simp)
              · intro j2 p2 hj2 hp2 ha2
                rw [hr] at hj2
                simp only [Except.ok.injEq, Option.some.injEq] at hj2
                subst hj2
                rw [hp] at hp2
                simp only [Option.some.injEq] at hp2
                subst hp2
                refine ⟨by rw [hrun2], ?_, ?_, fun _ => by rw [hrun2]⟩
                · intro t2 ht2 hta2
                  rw [hrt] at ht2
                  simp only [Except.ok.injEq, Option.some.injEq] at ht2
                  subst ht2
                  rw [hft] at hta2
                  exact absurd hta2 (by simp)
                · intro t2 ht2 hta2
                  rw [hrt] at ht2
                  simp only [Except.ok.injEq, Option.some.injEq] at ht2
                  subst ht2
                  rw [hrun2]

/-- Witness for C3's amended claim at a concrete environment whose generation
call fails softly (HTTP 503) — the request is answered with the fallback. -/
theorem simplifier_recovers_from_soft_model_failures_witness :
    (∃ s, (runPrescriptionSimplifier
        ⟨true, fun _ => AdapterOutcome.httpNotOk 503 [], fun _ _ => AdapterOutcome.nonJson⟩
        ⟨("Paracetamol 500mg twice daily").toList, PrescriptionLanguageCode.en⟩).1 =
          Except.ok s ∧
      (s = fallbackPrescriptionSummary
          ⟨("Paracetamol 500mg twice daily").toList, PrescriptionLanguageCode.en⟩ ∨
        (isPrescriptionLanguageAligned s PrescriptionLanguageCode.en = true ∧
          summaryBoundsOk s = true ∧ s.languageCode = PrescriptionLanguageCode.en))) ∧
    (runPrescriptionSimplifier
        ⟨true, fun _ => AdapterOutcome.httpNotOk 503 [], fun _ _ => AdapterOutcome.nonJson⟩
        ⟨("Paracetamol 500mg twice daily").toList, PrescriptionLanguageCode.en⟩).2 ≤ 2 ∧
    (requestGeminiJson true (AdapterOutcome.httpNotOk 503 []) = Except.ok none →
      (runPrescriptionSimplifier
        ⟨true, fun _ => AdapterOutcome.httpNotOk 503 [], fun _ _ => AdapterOutcome.nonJson⟩
        ⟨("Paracetamol 500mg twice daily").toList, PrescriptionLanguageCode.en⟩).1 =
        Except.ok (fallbackPrescriptionSummary
          ⟨("Paracetamol 500mg twice daily").toList, PrescriptionLanguageCode.en⟩)) ∧
    (∀ j, requestGeminiJson true (AdapterOutcome.httpNotOk 503 []) =
        Except.ok (some j) →
      parsePrescriptionSummary j = none →
      (runPrescriptionSimplifier
        ⟨true, fun _ => AdapterOutcome.httpNotOk 503 [], fun _ _ => AdapterOutcome.nonJson⟩
        ⟨("Paracetamol 500mg twice daily").toList, PrescriptionLanguageCode.en⟩).1 =
        Except.ok (fallbackPrescriptionSummary
          ⟨("Paracetamol 500mg twice daily").toList, PrescriptionLanguageCode.en⟩)) ∧
    (∀ j p, requestGeminiJson true (AdapterOutcome.httpNotOk 503 []) =
        Except.ok (some j) →
      parsePrescriptionSummary j = some p →
      isPrescriptionLanguageAligned (coercePrescriptionLanguage p PrescriptionLanguageCode.en)
          PrescriptionLanguageCode.en = false →
      (runPrescriptionSimplifier
        ⟨true, fun _ => AdapterOutcome.httpNotOk 503 [], fun _ _ => AdapterOutcome.nonJson⟩
        ⟨("Paracetamol 500mg twice daily").toList, PrescriptionLanguageCode.en⟩).2 = 2 ∧
      (∀ t, translatePrescriptionSummaryToLanguage
          ⟨true, fun _ => AdapterOutcome.httpNotOk 503 [], fun _ _ => AdapterOutcome.nonJson⟩
          (coercePrescriptionLanguage p PrescriptionLanguageCode.en)
          PrescriptionLanguageCode.en = Except.ok (some t) →
        isPrescriptionLanguageAligned t PrescriptionLanguageCode.en = true →
        (runPrescriptionSimplifier
          ⟨true, fun _ => AdapterOutcome.httpNotOk 503 [], fun _ _ => AdapterOutcome.nonJson⟩
          ⟨("Paracetamol 500mg twice daily").toList, PrescriptionLanguageCode.en⟩).1 =
          Except.ok t) ∧
      (∀ t, translatePrescriptionSummaryToLanguage
          ⟨true, fun _ => AdapterOutcome.httpNotOk 503 [], fun _ _ => AdapterOutcome.nonJson⟩
          (coercePrescriptionLanguage p PrescriptionLanguageCode.en)
          PrescriptionLanguageCode.en = Except.ok (some t) →
        isPrescriptionLanguageAligned t PrescriptionLanguageCode.en = false →
        (runPrescriptionSimplifier
          ⟨true, fun _ => AdapterOutcome.httpNotOk 503 [], fun _ _ => AdapterOutcome.nonJson⟩
          ⟨("Paracetamol 500mg twice daily").toList, PrescriptionLanguageCode.en⟩).1 =
          Except.ok (fallbackPrescriptionSummary
            ⟨("Paracetamol 500mg twice daily").toList, PrescriptionLanguageCode.en⟩)) ∧
      (translatePrescriptionSummaryToLanguage
          ⟨true, fun _ => AdapterOutcome.httpNotOk 503 [], fun _ _ => AdapterOutcome.nonJson⟩
          (coercePrescriptionLanguage p PrescriptionLanguageCode.en)
          PrescriptionLanguageCode.en = Except.ok none →
        (runPrescriptionSimplifier
          ⟨true, fun _ => AdapterOutcome.httpNotOk 503 [], fun _ _ => AdapterOutcome.nonJson⟩
          ⟨("Paracetamol 500mg twice daily").toList, PrescriptionLanguageCode.en⟩).1 =
          Except.ok (fallbackPrescriptionSummary
            ⟨("Paracetamol 500mg twice daily").toList, PrescriptionLanguageCode.en⟩))) :=
  simplifier_recovers_from_soft_model_failures
    ⟨true, fun _ => AdapterOutcome.httpNotOk 503 [], fun _ _ => AdapterOutcome.nonJson⟩
    ⟨("Paracetamol 500mg twice daily").toList, PrescriptionLanguageCode.en⟩
    rfl (fun _ _ => rfl)

theorem digitChar_isDigit (d : Nat) (h : d < 10) :
    isDigitCh (Nat.digitChar d) = true ∧ (Nat.digitChar d).toNat - 48 = d := by
  interval_cases d <;> exact ⟨by decide, by decide⟩

theorem parseNatDigits_append_one (l : List Char) (c : Char) :
    parseNatDigits (l ++ [c]) = 10 * parseNatDigits l + (c.toNat - 48) := by
  rw [parseNatDigits, parseNatDigits, List.foldl_append]
  rfl

theorem parseNatDigits_rev_digits (ds : List Nat) (h : ∀ d ∈ ds, d < 10) :
    parseNatDigits ((ds.reverse).map Nat.digitChar) = Nat.ofDigits 10 ds := by
  induction ds with
  | nil => simp [parseNatDigits, Nat.ofDigits]
  | cons d ds ih =>
    rw [List.reverse_cons, List.map_append, List.map_singleton,
      parseNatDigits_append_one, ih (fun x hx => h x (List.mem_cons_of_mem d hx)),
      Nat.ofDigits_cons, (digitChar_isDigit d (h d (List.mem_cons_self d ds))).2]
    ring

theorem parseNatDigits_natChars (n : Nat) : parseNatDigits (natChars n) = n := by
  by_cases h0 : n = 0
  · subst h0
    rfl
  · rw [natChars, if_neg h0,
      parseNatDigits_rev_digits _ (fun d hd => Nat.digits_lt_base (by norm_num) hd),
      Nat.ofDigits_digits]

theorem natChars_all_digits (n : Nat) : (natChars n).all isDigitCh = true := by
  by_cases h0 : n = 0
  · subst h0
    decide
  · rw [natChars, if_neg h0]
    rw [List.all_eq_true]
    intro c hc
    rw [List.mem_map] at hc
    obtain ⟨d, hd, rfl⟩ := hc
    rw [List.mem_reverse] at hd
    exact (digitChar_isDigit d (Nat.digits_lt_base (by norm_num) hd)).1

theorem natChars_ne_nil (n : Nat) : natChars n ≠ [] := by
  by_cases h0 : n = 0
  · subst h0
    decide
  · rw [natChars, if_neg h0]
    intro h
    rw [List.map_eq_nil_iff, List.reverse_eq_nil_iff] at h
    exact (Nat.digits_ne_nil_iff_ne_zero.mpr h0) h

theorem toLower_digit (c : Char) (h : isDigitCh c = true) : Char.toLower c = c := by
  have hdef : Char.toLower c =
      if c.toNat ≥ 65 ∧ c.toNat ≤ 90 then Char.ofNat (c.toNat + 32) else c := rfl
  simp only [isDigitCh, Bool.and_eq_true, decide_eq_true_eq] at h
  obtain ⟨h1, h2⟩ := h
  rw [Char.le_def] at h1 h2
  have hv1 : 48 ≤ c.toNat := h1
  have hv2 : c.toNat ≤ 57 := h2
  rw [hdef, if_neg (by omega)]

theorem lowerStr_digits (l : List Char) (h : l.all isDigitCh = true) : lowerStr l = l := by
  induction l with
  | nil => rfl
  | cons c rest ih =>
    rw [List.all_cons, Bool.and_eq_true] at h
    show Char.toLower c :: lowerStr rest = c :: rest
    rw [toLower_digit c h.1, ih h.2]

theorem takeWhile_digits_append (d rest : List Char) (hd : d.all isDigitCh = true)
    (hr : ∀ c, rest.head? = some c → isDigitCh c = false) :
    (d ++ rest).takeWhile isDigitCh = d := by
  induction d with
  | nil =>
    cases rest with
    | nil => rfl
    | cons c t =>
      rw [List.nil_append, List.takeWhile_cons_of_neg]
      simp [hr c rfl]
  | cons c t ih =>
    rw [List.all_cons, Bool.and_eq_true] at hd
    rw [List.cons_append, List.takeWhile_cons_of_pos hd.1, ih hd.2]

theorem dropWhile_eq_drop_len (p : Char → Bool) (l : List Char) :
    l.drop (l.takeWhile p).length = l.dropWhile p := by
  induction l with
  | nil => rfl
  | cons c t ih =>
    by_cases hc : p c = true
    · rw [List.takeWhile_cons_of_pos hc, List.dropWhile_cons_of_pos hc]
      simpa using ih
    · rw [List.takeWhile_cons_of_neg (by simp [hc]),
        List.dropWhile_cons_of_neg (by simp [hc])]
      rfl

theorem numUnitTryAt_on_digits (units : List (List Char)) (d rest : List Char)
    (hd : d.all isDigitCh = true) (hne : d ≠ [])
    (hr : ∀ c, rest.head? = some c → isDigitCh c = false) :
    numUnitTryAt units (d ++ rest) =
      if units.any (fun u => u.isPrefixOf (rest.dropWhile isJsWs)) then some d
      else none := by
  rw [numUnitTryAt]
  have htw : (d ++ rest).takeWhile isDigitCh = d := takeWhile_digits_append d rest hd hr
  rw [htw]
  dsimp only
  rw [if_neg (by simp [hne]), List.drop_left, dropWhile_eq_drop_len]

theorem scanPos_digits_some (units : List (List Char)) (d rest : List Char)
    (hd : d.all isDigitCh = true) (hne : d ≠ [])
    (hr : ∀ c, rest.head? = some c → isDigitCh c = false)
    (hu : units.any (fun u => u.isPrefixOf (rest.dropWhile isJsWs)) = true) :
    scanPos (numUnitTryAt units) (d ++ rest) = some d := by
  match d, hne with
  | c :: t, _ =>
    rw [List.cons_append, scanPos]
    rw [← List.cons_append, numUnitTryAt_on_digits units (c :: t) rest hd (by simp) hr,
      if_pos hu]

theorem scanPos_digits_none (units : List (List Char)) (d rest : List Char)
    (hd : d.all isDigitCh = true)
    (hr : ∀ c, rest.head? = some c → isDigitCh c = false)
    (hu : units.any (fun u => u.isPrefixOf (rest.dropWhile isJsWs)) = false)
    (hrest : scanPos (numUnitTryAt units) rest = none) :
    scanPos (numUnitTryAt units) (d ++ rest) = none := by
  induction d with
  | nil => exact hrest
  | cons c t ih =>
    rw [List.all_cons, Bool.and_eq_true] at hd
    rw [List.cons_append, scanPos]
    rw [← List.cons_append, numUnitTryAt_on_digits units (c :: t) rest
      (by rw [List.all_cons, Bool.and_eq_true]; exact hd) (by simp) hr, if_neg (by simp [hu])]
    exact ih hd.2

/-- C7: explicit "for N weeks" / "for N months" duration phrases are converted
to days with weeks times 7 and months times 30 (for every numeral N), and
end-to-end the extracted duration "2 weeks" of a concrete prescription yields
a 14-day duration. -/
theorem duration_days_weeks_months_conversion :
    (∀ n : Nat,
      durationDaysFromText (natChars n ++ (" weeks").toList) = some (n * 7)) ∧
    (∀ n : Nat,
      durationDaysFromText (natChars n ++ (" months").toList) = some (n * 30)) ∧
    (fallbackPrescriptionSummary
        ⟨("Take Amoxicillin 250mg for 2 weeks").toList,
          PrescriptionLanguageCode.en⟩).medicines.map
      (fun m => durationDaysFromText m.duration) = [some 14] := by
  have hrw : ∀ c : Char, (((" weeks").toList).head? = some c → isDigitCh c = false) := by
    intro c hc
    simp only [List.head?] at hc
    rw [show (" weeks").toList = ' ' :: ("weeks").toList from rfl] at hc
    simp only [List.head?_cons, Option.some.injEq] at hc
    subst hc
    decide
  have hrm : ∀ c : Char, (((" months").toList).head? = some c → isDigitCh c = false) := by
    intro c hc
    rw [show (" months").toList = ' ' :: ("months").toList from rfl] at hc
    simp only [List.head?_cons, Option.some.injEq] at hc
    subst hc
    decide
  refine ⟨?_, ?_, by decide⟩
  · intro n
    have hlower : lowerStr (natChars n ++ (" weeks").toList) =
        natChars n ++ (" weeks").toList := by
      show List.map Char.toLower _ = _
      rw [List.map_append]
      rw [show List.map Char.toLower (natChars n) = lowerStr (natChars n) from rfl,
        lowerStr_digits (natChars n) (natChars_all_digits n)]
      rw [show List.map Char.toLower ((" weeks").toList) = lowerStr ((" weeks").toList)
        from rfl]
      rw [show lowerStr ((" weeks").toList) = (" weeks").toList from by decide]
    have hday : numUnitFirstMatch [("day").toList, ("days").toList]
        (natChars n ++ (" weeks").toList) = none := by
      rw [numUnitFirstMatch, hlower]
      exact scanPos_digits_none _ _ _ (natChars_all_digits n) hrw (by decide) (by decide)
    have hweek : numUnitFirstMatch [("week").toList, ("weeks").toList]
        (natChars n ++ (" weeks").toList) = some (natChars n) := by
      rw [numUnitFirstMatch, hlower]
      exact scanPos_digits_some _ _ _ (natChars_all_digits n) (natChars_ne_nil n) hrw
        (by decide)
    rw [durationDaysFromText, hday]
    dsimp only
    rw [hweek]
    dsimp only
    rw [parseNatDigits_natChars]
  · intro n
    have hlower : lowerStr (natChars n ++ (" months").toList) =
        natChars n ++ (" months").toList := by
      show List.map Char.toLower _ = _
      rw [List.map_append]
      rw [show List.map Char.toLower (natChars n) = lowerStr (natChars n) from rfl,
        lowerStr_digits (natChars n) (natChars_all_digits n)]
      rw [show List.map Char.toLower ((" months").toList) = lowerStr ((" months").toList)
        from rfl]
      rw [show lowerStr ((" months").toList) = (" months").toList from by decide]
    have hday : numUnitFirstMatch [("day").toList, ("days").toList]
        (natChars n ++ (" months").toList) = none := by
      rw [numUnitFirstMatch, hlower]
      exact scanPos_digits_none _ _ _ (natChars_all_digits n) hrm (by decide) (by decide)
    have hweek : numUnitFirstMatch [("week").toList, ("weeks").toList]
        (natChars n ++ (" months").toList) = none := by
      rw [numUnitFirstMatch, hlower]
      exact scanPos_digits_none _ _ _ (natChars_all_digits n) hrm (by decide) (by decide)
    have hmonth : numUnitFirstMatch [("month").toList, ("months").toList]
        (natChars n ++ (" months").toList) = some (natChars n) := by
      rw [numUnitFirstMatch, hlower]
      exact scanPos_digits_some _ _ _ (natChars_all_digits n) (natChars_ne_nil n) hrm
        (by decide)
    rw [durationDaysFromText, hday]
    dsimp only
    rw [hweek]
    dsimp only
    rw [hmonth]
    dsimp only
    rw [parseNatDigits_natChars]

